import Mathlib

/-!
# GWM authentication of the MG EV vehicle module

A shallow embedding of `vehicle_mgev/src/mg_gwm_auth.cpp`:

* the seed-to-key functions `umul_lsr45`, `pass1`, `iterate`, `pass2`
  (32-bit unsigned arithmetic, written over `Nat` with explicit reduction
  modulo `2 ^ 32` wherever the C++ operation can wrap);
* the two driver entry points `StartAuthentication` and `GwmAuthentication`,
  whose only effect is the frames they hand to `canbus::Write`; a call is
  modelled by the list of frames it writes, in order.
-/

namespace MgGwmAuth

/-! ## Machine words -/

/-- The modulus of `uint32_t` arithmetic. -/
def U32 : Nat := 4294967296

/-- Addition of two `uint32_t` values. -/
def add32 (a b : Nat) : Nat := (a + b) % U32

/-- Subtraction of two `uint32_t` values (both below `2 ^ 32`), wrapping. -/
def sub32 (a b : Nat) : Nat := (a + U32 - b) % U32

/-- Multiplication of two `uint32_t` values. -/
def mul32 (a b : Nat) : Nat := (a * b) % U32

/-- Left shift of a `uint32_t` value; the bits shifted out of the top are lost. -/
def shl32 (a k : Nat) : Nat := (a <<< k) % U32

/-! ## Key derivation (anonymous namespace of the source) -/

/-- `umul_lsr45(a, b)`: the operands are split into 16-bit halves and the
partial products are combined with 32-bit additions. -/
def umul_lsr45 (a b : Nat) : Nat :=
  let i := a &&& 0xffff
  let a := a >>> 16
  let j := b &&& 0xffff
  let b := b >>> 16
  (add32 ((add32 ((mul32 i j) >>> 16) (add32 (mul32 i b) (mul32 j a))) >>> 16) (mul32 a b)) >>> 13

/-- One pass through the body of the `while (i3)` loop of `pass1`, on the
three locals `(i, i2, i3)`. -/
def pass1_body (i i2 i3 : Nat) : Nat × Nat × Nat :=
  let i2 :=
    if i3 &&& 1 ≠ 0 then
      let tmp := mul32 i2 i
      sub32 tmp (mul32 (umul_lsr45 tmp 0x82b87f05) 0x3eab)
    else i2
  let tmp2 := mul32 i i
  let i := sub32 tmp2 (mul32 (umul_lsr45 tmp2 0x82b87f05) 0x3eab)
  let i3 := i3 >>> 1
  (i, i2, i3)

/-- The `while (i3)` loop of `pass1`; the value is `i2` when the loop exits.
The loop is total: `i3` strictly decreases. -/
def pass1_loop (i i2 i3 : Nat) : Nat :=
  if _h : i3 = 0 then i2
  else
    pass1_loop (pass1_body i i2 i3).1 (pass1_body i i2 i3).2.1 (pass1_body i i2 i3).2.2
termination_by i3
decreasing_by
  show i3 >>> 1 < i3
  rw [Nat.shiftRight_eq_div_pow]
  omega

/-- The lines of `pass1` after the loop, as a function of the accumulator `i2`. -/
def pass1_finish (i2 : Nat) : Nat :=
  let i5 := (add32 (i2 >>> 8) i2) ^^^ 0x0f
  let i6 := (i2 ^^^ (shl32 i5 8)) &&& 0xff00
  let i7 := ((i2 ^^^ i5) &&& 0xff) ||| i6
  (i7 ||| shl32 i7 16) ^^^ 0xad0779e2

/-- `pass1(seed)`. -/
def pass1 (seed : Nat) : Nat :=
  let i := seed &&& 0xffff
  let i2 := 1
  let i3 := 0x12e5
  pass1_finish (pass1_loop i i2 i3)

/-- `iterate(seed, count)`: the body runs `count` times. -/
def iterate (seed : Nat) : Nat → Nat
  | 0 => seed
  | count + 1 =>
    iterate
      ((shl32 seed 1) |||
        ((((((((seed >>> 6) ^^^ seed) >>> 12) ^^^ seed) >>> 10) ^^^ seed) >>> 2) &&& 1))
      count

/-- `pass2(seed)`. -/
def pass2 (seed : Nat) : Nat :=
  let count := add32 0x25 (((seed >>> 0x18) &&& 0x1c) ^^^ 0x08)
  iterate seed count ^^^ 0xdc8fe1ae

/-! ## Declarations the driver takes from headers outside this file -/

/-- A byte (`uint8_t`). -/
abbrev uint8_t := Fin 256

/-- The constants of `vehicle.h`, `mg_obd_pids.h`, `vehicle_mgev.h` and
`esp_err.h` that the driver names and whose values are not fixed by this
file: the three poll types (service identifiers, each one byte), the
arbitration id `gwmId` of the gateway and the error code `ESP_FAIL`. -/
structure Platform where
  VEHICLE_POLL_TYPE_OBDIISESSION : uint8_t
  VEHICLE_POLL_TYPE_SECACCESS : uint8_t
  VEHICLE_POLL_TYPE_ROUTINECONTROL : uint8_t
  gwmId : Nat
  ESP_FAIL : Int

/-- The three poll types are pairwise different service identifiers. -/
def Platform.Distinct (c : Platform) : Prop :=
  c.VEHICLE_POLL_TYPE_OBDIISESSION ≠ c.VEHICLE_POLL_TYPE_SECACCESS ∧
  c.VEHICLE_POLL_TYPE_OBDIISESSION ≠ c.VEHICLE_POLL_TYPE_ROUTINECONTROL ∧
  c.VEHICLE_POLL_TYPE_SECACCESS ≠ c.VEHICLE_POLL_TYPE_ROUTINECONTROL

/-- Modelled from the spec: the macro `ISOTP_FT_SINGLE` is declared outside
this file; the spec gives the single-frame header byte as
`(0x0 << 4) | length`, so the frame-type tag is `0`. -/
def ISOTP_FT_SINGLE : Nat := 0

/-- Remote-transmission flag of a frame. -/
inductive CAN_RTR_t where
  | CAN_no_RTR
  | CAN_RTR
  deriving DecidableEq, Repr

/-- Frame format flag of a frame. -/
inductive CAN_frame_format_t where
  | CAN_frame_std
  | CAN_frame_ext
  deriving DecidableEq, Repr

/-- The frame information record, in the order of the initialiser
`{ .B = { 8, 0, CAN_no_RTR, CAN_frame_std, 0 } }`. -/
structure CAN_FIR_t where
  DLC : Nat
  unknown_2 : Nat
  RTR : CAN_RTR_t
  FF : CAN_frame_format_t
  reserved_24 : Nat
  deriving DecidableEq, Repr

/-- A CAN frame, in the order of the initialisers of the source: the bus it
belongs to (by identity), the callback (`nullptr` is `none`), the frame
information, the arbitration id and the eight data bytes `data.u8`. -/
structure CAN_frame_t where
  origin : Nat
  callback : Option Nat
  FIR : CAN_FIR_t
  MsgID : Nat
  data : List Nat
  deriving DecidableEq, Repr

/-- The assignment `frame.data.u8[k] = v`; the stored value is a byte. -/
def CAN_frame_t.setU8 (frame : CAN_frame_t) (k v : Nat) : CAN_frame_t :=
  { frame with data := frame.data.set k (v % 256) }

/-- A `canbus*`: the identity of the bus and the result code its `Write`
gives for a frame. -/
structure canbus where
  id : Nat
  Write : CAN_frame_t → Int

/-- The call `bus->Write(&frame)`: its result code, and the frame handed to
the transport. -/
def canbus.doWrite (bus : canbus) (frame : CAN_frame_t) : Int × List CAN_frame_t :=
  (bus.Write frame, [frame])

/-! ## The driver

Each entry point yields the frames it hands to `Write`, in order (logging is
not modelled). The response bytes `uint8_t* data` are a map from index to
byte. -/

/-- `OvmsVehicleMgEv::StartAuthentication(currentBus)`: the returned flag and
the frames written. -/
def StartAuthentication (c : Platform) (currentBus : canbus) : Bool × List CAN_frame_t :=
  let authStart : CAN_frame_t :=
    { origin := currentBus.id
      callback := none
      FIR := { DLC := 8, unknown_2 := 0, RTR := .CAN_no_RTR, FF := .CAN_frame_std,
               reserved_24 := 0 }
      MsgID := c.gwmId
      data := [((ISOTP_FT_SINGLE <<< 4) + 2) % 256, c.VEHICLE_POLL_TYPE_OBDIISESSION.val,
               1, 0, 0, 0, 0, 0] }
  let r := currentBus.doWrite authStart
  (decide (r.1 ≠ c.ESP_FAIL), r.2)

/-- The expression `(data[2] << 24) | (data[3] << 16) | (data[4] << 8) | data[5]`
converted to `uint32_t`. -/
def seedOf (data : Nat → uint8_t) : Nat :=
  (((data 2).val <<< 24) ||| ((data 3).val <<< 16) ||| ((data 4).val <<< 8) |||
    (data 5).val) % U32

/-- `OvmsVehicleMgEv::GwmAuthentication(currentBus, serviceId, data)`: the
frames written. -/
def GwmAuthentication (c : Platform) (currentBus : canbus) (serviceId : uint8_t)
    (data : Nat → uint8_t) : List CAN_frame_t :=
  let nextFrame : CAN_frame_t :=
    { origin := currentBus.id
      callback := none
      FIR := { DLC := 8, unknown_2 := 0, RTR := .CAN_no_RTR, FF := .CAN_frame_std,
               reserved_24 := 0 }
      MsgID := c.gwmId
      data := [0, 0, 0, 0, 0, 0, 0, 0] }
  let known := false
  let (nextFrame, known) :=
    if serviceId = c.VEHICLE_POLL_TYPE_OBDIISESSION then
      if (data 1).val = 0x01 then
        -- First session start, start another
        let nextFrame := nextFrame.setU8 0 ((ISOTP_FT_SINGLE <<< 4) ||| 2)
        let nextFrame := nextFrame.setU8 1 c.VEHICLE_POLL_TYPE_OBDIISESSION.val
        let nextFrame := nextFrame.setU8 2 3
        (nextFrame, true)
      else if (data 1).val = 0x03 then
        -- Request seed1
        let nextFrame := nextFrame.setU8 0 ((ISOTP_FT_SINGLE <<< 4) ||| 6)
        let nextFrame := nextFrame.setU8 1 c.VEHICLE_POLL_TYPE_SECACCESS.val
        let nextFrame := nextFrame.setU8 2 0x41
        let nextFrame := nextFrame.setU8 3 0x3e
        let nextFrame := nextFrame.setU8 4 0xab
        let nextFrame := nextFrame.setU8 5 0x00
        let nextFrame := nextFrame.setU8 6 0x0d
        (nextFrame, true)
      else (nextFrame, known)
    else if serviceId = c.VEHICLE_POLL_TYPE_SECACCESS then
      if (data 1).val = 0x41 then
        -- Seed1 response
        let seed := seedOf data
        let key := pass1 seed
        let nextFrame := nextFrame.setU8 0 ((ISOTP_FT_SINGLE <<< 4) ||| 6)
        let nextFrame := nextFrame.setU8 1 c.VEHICLE_POLL_TYPE_SECACCESS.val
        let nextFrame := nextFrame.setU8 2 0x42
        let nextFrame := nextFrame.setU8 3 (key >>> 24)
        let nextFrame := nextFrame.setU8 4 (key >>> 16)
        let nextFrame := nextFrame.setU8 5 (key >>> 8)
        let nextFrame := nextFrame.setU8 6 key
        (nextFrame, true)
      else if (data 1).val = 0x42 then
        -- Seed1 accept, request seed2
        let nextFrame := nextFrame.setU8 0 ((ISOTP_FT_SINGLE <<< 4) ||| 2)
        let nextFrame := nextFrame.setU8 1 c.VEHICLE_POLL_TYPE_SECACCESS.val
        let nextFrame := nextFrame.setU8 2 0x01
        (nextFrame, true)
      else if (data 1).val = 0x01 then
        -- Seed 2 response
        let seed := seedOf data
        let key := pass2 seed
        let nextFrame := nextFrame.setU8 0 ((ISOTP_FT_SINGLE <<< 4) ||| 6)
        let nextFrame := nextFrame.setU8 1 c.VEHICLE_POLL_TYPE_SECACCESS.val
        let nextFrame := nextFrame.setU8 2 0x02
        let nextFrame := nextFrame.setU8 3 (key >>> 24)
        let nextFrame := nextFrame.setU8 4 (key >>> 16)
        let nextFrame := nextFrame.setU8 5 (key >>> 8)
        let nextFrame := nextFrame.setU8 6 key
        (nextFrame, true)
      else if (data 1).val = 0x02 then
        -- Seed 2 accept, end session 1
        let nextFrame := nextFrame.setU8 0 ((ISOTP_FT_SINGLE <<< 4) ||| 5)
        let nextFrame := nextFrame.setU8 1 c.VEHICLE_POLL_TYPE_ROUTINECONTROL.val
        let nextFrame := nextFrame.setU8 2 0x01
        let nextFrame := nextFrame.setU8 3 0xaa
        let nextFrame := nextFrame.setU8 4 0xff
        let nextFrame := nextFrame.setU8 5 0x00
        (nextFrame, true)
      else (nextFrame, known)
    else if serviceId = c.VEHICLE_POLL_TYPE_ROUTINECONTROL then
      if (data 1).val = 0x01 then
        -- Ack end session 1, end session 3
        let nextFrame := nextFrame.setU8 0 ((ISOTP_FT_SINGLE <<< 4) ||| 4)
        let nextFrame := nextFrame.setU8 1 c.VEHICLE_POLL_TYPE_ROUTINECONTROL.val
        let nextFrame := nextFrame.setU8 2 0x03
        let nextFrame := nextFrame.setU8 3 0xaa
        let nextFrame := nextFrame.setU8 4 0xff
        (nextFrame, true)
      else if (data 1).val = 0x03 then
        -- Ack session 3
        (nextFrame, known)
      else (nextFrame, known)
    else (nextFrame, known)
  if known then (currentBus.doWrite nextFrame).2 else []

/-! ## Definitions used to state and check the properties -/

/-- The loop of `pass1` unrolled at most `n` times: the same test and the
same body as `pass1_loop`, by recursion on the bound. -/
def pass1_run : Nat → Nat → Nat → Nat → Nat
  | 0, _, i2, _ => i2
  | n + 1, i, i2, i3 =>
    if i3 = 0 then i2
    else pass1_run n (pass1_body i i2 i3).1 (pass1_body i i2 i3).2.1 (pass1_body i i2 i3).2.2

/-- The finisher `F` in the words of the specification, in exact (unbounded)
integer arithmetic: `i5 = ((r>>8)+r) ^ 0x0F`, `i6 = (r ^ (i5<<8)) & 0xFF00`,
`i7 = ((r ^ i5) & 0xFF) | i6`, result `(i7 | i7<<16) ^ 0xAD0779E2`. -/
def finisher_spec (r : Nat) : Nat :=
  let i5 := ((r >>> 8) + r) ^^^ 0x0F
  let i6 := (r ^^^ (i5 <<< 8)) &&& 0xFF00
  let i7 := ((r ^^^ i5) &&& 0xFF) ||| i6
  (i7 ||| (i7 <<< 16)) ^^^ 0xAD0779E2

/-- The phase-1 key in the words of the specification: the finisher applied
to the true modular power `(seed & 0xFFFF) ^ 0x12E5 mod 0x3EAB`. -/
def derivePhase1Key_spec (seed : Nat) : Nat :=
  finisher_spec (((seed &&& 0xFFFF) ^ 0x12E5) % 0x3EAB)

/-- The big-endian 32-bit value of bytes `2..5` of a response. -/
def seedBE (data : Nat → uint8_t) : Nat :=
  (data 2).val * 2 ^ 24 + (data 3).val * 2 ^ 16 + (data 4).val * 2 ^ 8 + (data 5).val

/-- The data bytes of a key frame: header `hdr`, service `svc`, kind `kind`
and the key `k` big-endian, zero-padded to eight bytes. -/
def keyFrameBytes (hdr svc kind k : Nat) : List Nat :=
  [hdr, svc, kind, k >>> 24, (k >>> 16) &&& 0xFF, (k >>> 8) &&& 0xFF, k &&& 0xFF, 0x00]

/-- A response buffer holding the listed bytes (zero beyond them). -/
def bytes (l : List Nat) : Nat → uint8_t :=
  fun k => Fin.ofNat (l.getD k 0)

/-- A response of kind `kind` that carries the 32-bit value `seed` big-endian
in bytes `2..5`. -/
def seedResponse (kind seed : Nat) : Nat → uint8_t :=
  bytes [0x06, kind, seed >>> 24, (seed >>> 16) &&& 0xFF, (seed >>> 8) &&& 0xFF, seed &&& 0xFF]

/-- The frames written when the responses `rs` are handed to
`GwmAuthentication` one after the other. -/
def feed (c : Platform) (currentBus : canbus) (rs : List (uint8_t × (Nat → uint8_t))) :
    List CAN_frame_t :=
  rs.foldl (fun written r => written ++ GwmAuthentication c currentBus r.1 r.2) []

/-- The frame with data bytes `l` and the fixed fields both entry points
give to their frame: origin `currentBus`, no callback, `DLC = 8`, standard
format, arbitration id `gwmId`. -/
def gwmFrame (c : Platform) (currentBus : canbus) (l : List Nat) : CAN_frame_t :=
  { origin := currentBus.id
    callback := none
    FIR := { DLC := 8, unknown_2 := 0, RTR := .CAN_no_RTR, FF := .CAN_frame_std,
             reserved_24 := 0 }
    MsgID := c.gwmId
    data := l }

/-- An instance of the constants, for concrete evaluation: the UDS service
identifiers `0x10`, `0x27`, `0x31`, gateway id `0x710`, `ESP_FAIL = -1`. -/
def udsPlatform : Platform :=
  { VEHICLE_POLL_TYPE_OBDIISESSION := 0x10
    VEHICLE_POLL_TYPE_SECACCESS := 0x27
    VEHICLE_POLL_TYPE_ROUTINECONTROL := 0x31
    gwmId := 0x710
    ESP_FAIL := -1 }

/-- A bus whose every write succeeds (result `0`). -/
def goodBus : canbus := { id := 1, Write := fun _ => 0 }

/-- A bus whose every write fails (result `-1`). -/
def badBus : canbus := { id := 2, Write := fun _ => -1 }

/-- The value one pass through the body of the loop of `iterate` gives to
`seed`. -/
def iterate_step (seed : Nat) : Nat :=
  (shl32 seed 1) |||
    ((((((((seed >>> 6) ^^^ seed) >>> 12) ^^^ seed) >>> 10) ^^^ seed) >>> 2) &&& 1)

/-- The local `count` of `pass2`. -/
def pass2_count (seed : Nat) : Nat :=
  add32 0x25 (((seed >>> 0x18) &&& 0x1c) ^^^ 0x08)

/-- Bit `k` of `v`, as `0` or `1`. -/
def bitAt (v k : Nat) : Nat := (v >>> k) &&& 1

/-- The middle sum of `umul_lsr45` before any wrap-around: the high half of
the low product plus the two cross products of the 16-bit halves. -/
def middleSum (a b : Nat) : Nat :=
  ((a % 65536) * (b % 65536)) / 65536 + ((a % 65536) * (b / 65536) + (b % 65536) * (a / 65536))

/-- The seven `(serviceId, data[1])` rows of the table on which a frame is
sent. -/
def sendingRow (c : Platform) (serviceId kind : uint8_t) : Prop :=
  (serviceId = c.VEHICLE_POLL_TYPE_OBDIISESSION ∧ kind = 0x01) ∨
  (serviceId = c.VEHICLE_POLL_TYPE_OBDIISESSION ∧ kind = 0x03) ∨
  (serviceId = c.VEHICLE_POLL_TYPE_SECACCESS ∧ kind = 0x41) ∨
  (serviceId = c.VEHICLE_POLL_TYPE_SECACCESS ∧ kind = 0x42) ∨
  (serviceId = c.VEHICLE_POLL_TYPE_SECACCESS ∧ kind = 0x01) ∨
  (serviceId = c.VEHICLE_POLL_TYPE_SECACCESS ∧ kind = 0x02) ∨
  (serviceId = c.VEHICLE_POLL_TYPE_ROUTINECONTROL ∧ kind = 0x01)

/-- A response that carries `len` bytes in the buffer `data` is too short for
the row it selects, in the words of the specification: fewer than 2 bytes, or
fewer than 6 bytes on the two seed rows of `SecurityAccess`. -/
def tooShort (c : Platform) (len : Nat) (serviceId : uint8_t) (data : Nat → uint8_t) : Prop :=
  len < 2 ∨
  (serviceId = c.VEHICLE_POLL_TYPE_SECACCESS ∧ (data 1 = 0x41 ∨ data 1 = 0x01) ∧ len < 6)

/-! ## Arithmetic of the reduction step -/

/-- Masking with `0xffff` keeps the low 16 bits. -/
theorem and_ffff (x : Nat) : x &&& 0xffff = x % 65536 := by
  have := Nat.and_pow_two_sub_one_eq_mod x 16
  simpa using this

/-- The body of `umul_lsr45` with masks and shifts written as remainders and
quotients. -/
theorem umul_lsr45_halves (a b : Nat) :
    umul_lsr45 a b =
      (add32 ((add32 ((mul32 (a % 65536) (b % 65536)) / 65536)
        (add32 (mul32 (a % 65536) (b / 65536)) (mul32 (b % 65536) (a / 65536)))) / 65536)
        (mul32 (a / 65536) (b / 65536))) / 8192 := by
  unfold umul_lsr45
  simp only [and_ffff, Nat.shiftRight_eq_div_pow]

/-- Below `0xFC800000` no intermediate sum of `umul_lsr45 x 0x82b87f05` wraps,
and the result is the quotient of `x` by `0x3eab`. -/
theorem umul_lsr45_recip (x : Nat) (hx : x < 0xFC800000) :
    umul_lsr45 x 0x82b87f05 = x / 0x3eab := by
  rw [umul_lsr45_halves]
  have hb1 : (0x82b87f05 : Nat) % 65536 = 32517 := by decide
  have hb2 : (0x82b87f05 : Nat) / 65536 = 33464 := by decide
  rw [hb1, hb2]
  generalize hi : x % 65536 = i
  generalize ha : x / 65536 = a
  have hib : i < 65536 := by omega
  have hab : a ≤ 0xFC7F := by omega
  have hx' : x = 65536 * a + i := by omega
  subst hx'
  unfold add32 mul32 U32
  rw [Nat.mod_eq_of_lt (show i * 32517 < 4294967296 by omega),
    Nat.mod_eq_of_lt (show i * 33464 < 4294967296 by omega),
    Nat.mod_eq_of_lt (show 32517 * a < 4294967296 by omega),
    Nat.mod_eq_of_lt (show a * 33464 < 4294967296 by omega),
    Nat.mod_eq_of_lt (show i * 33464 + 32517 * a < 4294967296 by omega),
    Nat.mod_eq_of_lt (show i * 32517 / 65536 + (i * 33464 + 32517 * a) < 4294967296 by omega),
    Nat.mod_eq_of_lt (show (i * 32517 / 65536 + (i * 33464 + 32517 * a)) / 65536 + a * 33464 < 4294967296 by omega)]
  omega

/-- The reduction `x - umul_lsr45(x, 0x82b87f05) * 0x3eab` is the remainder of
`x` by `0x3eab` for every `x` below `0xFC800000`. -/
theorem reduce_exact (x : Nat) (hx : x < 0xFC800000) :
    sub32 x (mul32 (umul_lsr45 x 0x82b87f05) 0x3eab) = x % 0x3eab := by
  rw [umul_lsr45_recip x hx]
  unfold sub32 mul32 U32
  omega

/-- One pass through the loop body when the register is a 16-bit value whose
square is reduced exactly and the accumulator is below the modulus. -/
theorem pass1_body_exact (i i2 i3 : Nat) (hi : i < 0x10000)
    (hsq : sub32 (i * i) (mul32 (umul_lsr45 (i * i) 0x82b87f05) 0x3eab) = (i * i) % 0x3eab)
    (hi2 : i2 < 0x3eab) :
    pass1_body i i2 i3 =
      ((i * i) % 0x3eab, if i3 % 2 = 1 then (i2 * i) % 0x3eab else i2, i3 / 2) := by
  have hii : i * i < 4294967296 := by nlinarith
  have hi2i : i2 * i < 0xFC800000 := by nlinarith
  have h1 : mul32 i i = i * i := by
    unfold mul32 U32
    exact Nat.mod_eq_of_lt hii
  have h2 : mul32 i2 i = i2 * i := by
    unfold mul32 U32
    exact Nat.mod_eq_of_lt (by omega)
  unfold pass1_body
  simp only [h1, h2, hsq, reduce_exact _ hi2i, Nat.and_one_is_mod, Nat.shiftRight_eq_div_pow]
  have : i3 % 2 = 0 ∨ i3 % 2 = 1 := by omega
  rcases this with h | h <;> simp [h]

/-- The loop exits at once when `i3 = 0`. -/
theorem pass1_loop_zero (i i2 : Nat) : pass1_loop i i2 0 = i2 := by
  rw [pass1_loop]; simp

/-- The loop runs its body once when `i3 ≠ 0`. -/
theorem pass1_loop_step (i i2 i3 : Nat) (h : i3 ≠ 0) :
    pass1_loop i i2 i3 =
      pass1_loop (pass1_body i i2 i3).1 (pass1_body i i2 i3).2.1 (pass1_body i i2 i3).2.2 := by
  rw [pass1_loop]; simp [h]

/-- One step of square-and-multiply preserves `i2 * i ^ e` modulo `m`. -/
theorem modpow_step (m i i2 e : Nat) :
    ((if e % 2 = 1 then (i2 * i) % m else i2) * ((i * i) % m) ^ (e / 2)) % m
      = (i2 * i ^ e) % m := by
  have hpow : i ^ e = (i * i) ^ (e / 2) * i ^ (e % 2) := by
    conv_lhs => rw [← Nat.div_add_mod e 2]
    rw [pow_add, pow_mul, pow_two]
  have h1 : Nat.ModEq m ((i * i % m) ^ (e / 2)) ((i * i) ^ (e / 2)) :=
    (Nat.mod_modEq _ _).pow _
  by_cases hb : e % 2 = 1
  · rw [if_pos hb, hpow, hb]
    have h2 : Nat.ModEq m (i2 * i % m) (i2 * i) := Nat.mod_modEq _ _
    refine (h2.mul h1).trans ?_
    show _ % _ = _ % _
    congr 1
    ring
  · have hb0 : e % 2 = 0 := by omega
    rw [if_neg hb, hpow, hb0]
    refine ((Nat.ModEq.refl i2).mul h1).trans ?_
    show _ % _ = _ % _
    congr 1
    ring

/-- With register and accumulator below the modulus the loop is
square-and-multiply modulo `0x3eab`. -/
theorem pass1_loop_modpow (e : Nat) :
    ∀ i i2 : Nat, i < 0x3eab → i2 < 0x3eab →
      pass1_loop i i2 e = (i2 * i ^ e) % 0x3eab := by
  induction e using Nat.strong_induction_on with
  | _ e ih =>
    intro i i2 hi hi2
    by_cases he : e = 0
    · subst he
      rw [pass1_loop_zero]
      simp [Nat.mod_eq_of_lt hi2]
    · have hsq : sub32 (i * i) (mul32 (umul_lsr45 (i * i) 0x82b87f05) 0x3eab)
          = (i * i) % 0x3eab := reduce_exact _ (by nlinarith)
      have hm : (i * i) % 0x3eab < 0x3eab := Nat.mod_lt _ (by norm_num)
      have hacc : (if e % 2 = 1 then (i2 * i) % 0x3eab else i2) < 0x3eab := by
        split
        · exact Nat.mod_lt _ (by norm_num)
        · exact hi2
      rw [pass1_loop_step _ _ _ he, pass1_body_exact i i2 e (by omega) hsq hi2]
      simp only
      rw [ih _ (by omega) _ _ hm hacc]
      exact modpow_step _ _ _ _

/-- The loop exits within `n` passes when `i3 < 2 ^ n`. -/
theorem pass1_loop_eq_run (n : Nat) :
    ∀ i i2 i3 : Nat, i3 < 2 ^ n → pass1_loop i i2 i3 = pass1_run n i i2 i3 := by
  induction n with
  | zero =>
    intro i i2 i3 h
    have h0 : i3 = 0 := by simpa using h
    subst h0
    rw [pass1_loop_zero]; rfl
  | succ n ih =>
    intro i i2 i3 h
    by_cases h0 : i3 = 0
    · subst h0
      rw [pass1_loop_zero]; simp [pass1_run]
    · rw [pass1_loop_step _ _ _ h0]
      simp only [pass1_run, if_neg h0]
      apply ih
      show i3 >>> 1 < 2 ^ n
      rw [Nat.shiftRight_eq_div_pow, pow_succ] at *
      omega

/-- On a 16-bit accumulator no operation of the finisher wraps. -/
theorem pass1_finish_eq_spec (r : Nat) (hr : r < 0x10000) :
    pass1_finish r = finisher_spec r := by
  have hs : r >>> 8 ≤ r := by
    rw [Nat.shiftRight_eq_div_pow]
    exact Nat.div_le_self _ _
  have h1 : add32 (r >>> 8) r = r >>> 8 + r := by
    unfold add32 U32
    exact Nat.mod_eq_of_lt (by omega)
  have h5 : ((r >>> 8 + r) ^^^ 0x0f) < 2 ^ 17 :=
    Nat.xor_lt_two_pow (by omega) (by norm_num)
  have h2 : shl32 ((r >>> 8 + r) ^^^ 0x0f) 8 = ((r >>> 8 + r) ^^^ 0x0f) <<< 8 := by
    unfold shl32 U32
    rw [Nat.shiftLeft_eq]
    exact Nat.mod_eq_of_lt (by omega)
  have h3 : ∀ a b : Nat, shl32 ((a &&& 0xff) ||| (b &&& 0xff00)) 16
      = ((a &&& 0xff) ||| (b &&& 0xff00)) <<< 16 := by
    intro a b
    have ha : a &&& 0xff < 2 ^ 16 := lt_of_le_of_lt Nat.and_le_right (by norm_num)
    have hb : b &&& 0xff00 < 2 ^ 16 := lt_of_le_of_lt Nat.and_le_right (by norm_num)
    have := Nat.or_lt_two_pow ha hb
    unfold shl32 U32
    rw [Nat.shiftLeft_eq]
    exact Nat.mod_eq_of_lt (by omega)
  unfold pass1_finish finisher_spec
  simp only [h1, h2, h3]

/-- The body of `pass1`. -/
theorem pass1_unfold (seed : Nat) :
    pass1 seed = pass1_finish (pass1_loop (seed &&& 0xffff) 1 0x12e5) := rfl

set_option maxRecDepth 1000000 in
/-- The squares of the register values `0xFE3F .. 0xFFFF` other than `0xFE96`
are reduced exactly (checked one by one). -/
theorem reduce_top :
    ∀ k, k < 449 → k ≠ 87 →
      sub32 ((0xFE3F + k) * (0xFE3F + k))
          (mul32 (umul_lsr45 ((0xFE3F + k) * (0xFE3F + k)) 0x82b87f05) 0x3eab)
        = ((0xFE3F + k) * (0xFE3F + k)) % 0x3eab := by
  decide

/-- The first squaring of the loop is reduced exactly for every 16-bit
register value except `0xFE96`. -/
theorem reduce_square (i : Nat) (hi : i < 0x10000) (hne : i ≠ 0xFE96) :
    sub32 (i * i) (mul32 (umul_lsr45 (i * i) 0x82b87f05) 0x3eab) = (i * i) % 0x3eab := by
  by_cases hlow : i ≤ 0xFE3E
  · exact reduce_exact _ (by nlinarith)
  · obtain ⟨k, rfl⟩ : ∃ k, i = 0xFE3F + k := ⟨i - 0xFE3F, by omega⟩
    exact reduce_top k (by omega) (by omega)

/-- The loop started from a 16-bit register whose first squaring is reduced
exactly, with the accumulator below the modulus. -/
theorem pass1_loop_modpow16 (e i i2 : Nat) (hi : i < 0x10000)
    (hsq : sub32 (i * i) (mul32 (umul_lsr45 (i * i) 0x82b87f05) 0x3eab) = (i * i) % 0x3eab)
    (hi2 : i2 < 0x3eab) :
    pass1_loop i i2 e = (i2 * i ^ e) % 0x3eab := by
  by_cases he : e = 0
  · subst he
    rw [pass1_loop_zero]
    simp [Nat.mod_eq_of_lt hi2]
  · have hm : (i * i) % 0x3eab < 0x3eab := Nat.mod_lt _ (by norm_num)
    have hacc : (if e % 2 = 1 then (i2 * i) % 0x3eab else i2) < 0x3eab := by
      split
      · exact Nat.mod_lt _ (by norm_num)
      · exact hi2
    rw [pass1_loop_step _ _ _ he, pass1_body_exact i i2 e hi hsq hi2]
    simp only
    rw [pass1_loop_modpow _ _ _ hm hacc]
    exact modpow_step _ _ _ _

/-- C7: for every seed `x` with `x ≤ 0x3EAA` the accumulator `i2` at the exit
of the square-and-multiply loop of `pass1` is `(x ^ 0x12E5) mod 0x3EAB` in
exact integer arithmetic, and `pass1 x` is the finisher applied to it. -/
theorem pass1_loop_is_modpow (x : Nat) (hx : x ≤ 0x3EAA) :
    pass1_loop (x &&& 0xffff) 1 0x12e5 = (x ^ 0x12E5) % 0x3EAB ∧
    pass1 x = pass1_finish ((x ^ 0x12E5) % 0x3EAB) := by
  have hm : x &&& 0xffff = x := by
    rw [and_ffff]
    exact Nat.mod_eq_of_lt (by omega)
  have h : pass1_loop (x &&& 0xffff) 1 0x12e5 = (x ^ 0x12E5) % 0x3EAB := by
    rw [hm, pass1_loop_modpow 0x12e5 x 1 (by omega) (by norm_num), one_mul]
  exact ⟨h, by rw [pass1_unfold, h]⟩

/-- The loop at the seed `2`. -/
theorem pass1_loop_is_modpow_witness :
    (2 : Nat) ≤ 0x3EAA ∧
    (pass1_loop (2 &&& 0xffff) 1 0x12e5 = (2 ^ 0x12E5) % 0x3EAB ∧
     pass1 2 = pass1_finish ((2 ^ 0x12E5) % 0x3EAB)) :=
  ⟨by decide, pass1_loop_is_modpow 2 (by decide)⟩

/-- C6 (amended): for every seed whose low 16 bits are not `0xFE96`,
`pass1 seed` is the finisher of the specification applied to the true modular
power `((seed & 0xFFFF) ^ 0x12E5) mod 0x3EAB`. -/
theorem pass1_eq_spec_except_FE96 (seed : Nat) (h : seed &&& 0xFFFF ≠ 0xFE96) :
    pass1 seed = derivePhase1Key_spec seed := by
  have hi : seed &&& 0xFFFF < 0x10000 := by
    rw [and_ffff]
    exact Nat.mod_lt _ (by norm_num)
  have hl := pass1_loop_modpow16 0x12e5 (seed &&& 0xFFFF) 1 hi
    (reduce_square _ hi h) (by norm_num)
  rw [one_mul] at hl
  rw [pass1_unfold, hl]
  unfold derivePhase1Key_spec
  exact pass1_finish_eq_spec _ (lt_trans (Nat.mod_lt _ (by norm_num)) (by norm_num))

/-- The phase-1 key of the seed `0x12345678`, whose low 16 bits are `0x5678`. -/
theorem pass1_eq_spec_except_FE96_witness :
    (0x12345678 : Nat) &&& 0xFFFF ≠ 0xFE96 ∧
    pass1 0x12345678 = derivePhase1Key_spec 0x12345678 :=
  ⟨by decide, pass1_eq_spec_except_FE96 0x12345678 (by decide)⟩

set_option maxRecDepth 100000 in
set_option exponentiation.threshold 5000 in
/-- C6 (as stated) fails at the seed `0xFE96`: the code gives `0x6F47BBA2`,
the finisher of the true modular power is `0x520C86E9`. -/
theorem pass1_ne_spec_at_FE96 :
    pass1 0xFE96 = 0x6F47BBA2 ∧ derivePhase1Key_spec 0xFE96 = 0x520C86E9 ∧
    pass1 0xFE96 ≠ derivePhase1Key_spec 0xFE96 := by
  have h1 : pass1 0xFE96 = 0x6F47BBA2 := by
    rw [pass1_unfold, pass1_loop_eq_run 13 _ _ _ (by norm_num)]
    decide
  have h2 : derivePhase1Key_spec 0xFE96 = 0x520C86E9 := by decide
  refine ⟨h1, h2, ?_⟩
  rw [h1, h2]
  decide

/-! ## Seeds and key bytes -/

/-- OR with a value below `2 ^ i` adds it to a multiple of `2 ^ i`. -/
theorem or_eq_add_of_lt (i q y : Nat) (hy : y < 2 ^ i) : (2 ^ i * q) ||| y = 2 ^ i * q + y :=
  (Nat.mul_add_lt_is_or hy q).symm

/-- The seed assembled by the shifts and ORs of the source is the big-endian
value of bytes `2..5`. -/
theorem seedOf_eq_seedBE (data : Nat → uint8_t) : seedOf data = seedBE data := by
  unfold seedOf seedBE U32
  have h2 := (data 2).isLt
  have h3 := (data 3).isLt
  have h4 := (data 4).isLt
  have h5 := (data 5).isLt
  generalize (data 2).val = a at *
  generalize (data 3).val = b at *
  generalize (data 4).val = c at *
  generalize (data 5).val = d at *
  simp only [Nat.shiftLeft_eq]
  have e1 : a * 2 ^ 24 ||| b * 2 ^ 16 = 2 ^ 16 * (a * 2 ^ 8 + b) := by
    have := or_eq_add_of_lt 24 a (b * 2 ^ 16) (by omega)
    rw [Nat.mul_comm a (2 ^ 24), this]
    omega
  have e2 : 2 ^ 16 * (a * 2 ^ 8 + b) ||| c * 2 ^ 8 = 2 ^ 8 * (a * 2 ^ 16 + b * 2 ^ 8 + c) := by
    have := or_eq_add_of_lt 16 (a * 2 ^ 8 + b) (c * 2 ^ 8) (by omega)
    rw [this]
    omega
  have e3 : 2 ^ 8 * (a * 2 ^ 16 + b * 2 ^ 8 + c) ||| d
      = 2 ^ 8 * (a * 2 ^ 16 + b * 2 ^ 8 + c) + d :=
    or_eq_add_of_lt 8 _ d (by omega)
  rw [e1, e2, e3]
  omega

/-- A big-endian seed is a 32-bit value. -/
theorem seedBE_lt (data : Nat → uint8_t) : seedBE data < 2 ^ 32 := by
  unfold seedBE
  have h2 := (data 2).isLt
  have h3 := (data 3).isLt
  have h4 := (data 4).isLt
  have h5 := (data 5).isLt
  omega

/-- The phase-1 key is a 32-bit value. -/
theorem pass1_lt (seed : Nat) : pass1 seed < 2 ^ 32 := by
  rw [pass1_unfold]
  unfold pass1_finish
  generalize pass1_loop (seed &&& 0xffff) 1 0x12e5 = r
  simp only
  generalize (add32 (r >>> 8) r ^^^ 0x0f) = i5
  have ha : (r ^^^ i5) &&& 0xff < 2 ^ 16 := lt_of_le_of_lt Nat.and_le_right (by norm_num)
  have hb : (r ^^^ shl32 i5 8) &&& 0xff00 < 2 ^ 16 := lt_of_le_of_lt Nat.and_le_right (by norm_num)
  have h7 := Nat.or_lt_two_pow ha hb
  have h8 : shl32 ((r ^^^ i5) &&& 0xff ||| (r ^^^ shl32 i5 8) &&& 0xff00) 16 < 2 ^ 32 := by
    unfold shl32 U32
    exact Nat.mod_lt _ (by norm_num)
  exact Nat.xor_lt_two_pow (Nat.or_lt_two_pow (by omega) h8) (by norm_num)

/-- After at least one step `iterate` yields a 32-bit value. -/
theorem iterate_succ_lt (seed n : Nat) : iterate seed (n + 1) < 2 ^ 32 := by
  induction n generalizing seed with
  | zero =>
    simp only [iterate]
    refine Nat.or_lt_two_pow ?_ (lt_of_le_of_lt Nat.and_le_right (by norm_num))
    unfold shl32 U32
    exact Nat.mod_lt _ (by norm_num)
  | succ n ih =>
    rw [iterate]
    exact ih _

/-- The phase-2 key is a 32-bit value. -/
theorem pass2_lt (seed : Nat) : pass2 seed < 2 ^ 32 := by
  unfold pass2
  simp only
  have hc : ∃ n, add32 0x25 (((seed >>> 0x18) &&& 0x1c) ^^^ 0x08) = n + 1 := by
    have h1 : ((seed >>> 0x18) &&& 0x1c) ^^^ 0x08 < 2 ^ 5 :=
      Nat.xor_lt_two_pow (lt_of_le_of_lt Nat.and_le_right (by norm_num)) (by norm_num)
    refine ⟨0x24 + (((seed >>> 0x18) &&& 0x1c) ^^^ 0x08), ?_⟩
    unfold add32 U32
    omega
  obtain ⟨n, hn⟩ := hc
  rw [hn]
  exact Nat.xor_lt_two_pow (iterate_succ_lt _ _) (by norm_num)

/-- The four bytes stored from a 32-bit key are its big-endian bytes. -/
theorem key_bytes (k : Nat) (hk : k < 2 ^ 32) :
    (k >>> 24) % 256 = k >>> 24 ∧ (k >>> 16) % 256 = (k >>> 16) &&& 0xFF ∧
    (k >>> 8) % 256 = (k >>> 8) &&& 0xFF ∧ k % 256 = k &&& 0xFF ∧
    (k >>> 24) * 2 ^ 24 + ((k >>> 16) &&& 0xFF) * 2 ^ 16 + ((k >>> 8) &&& 0xFF) * 2 ^ 8
      + (k &&& 0xFF) = k := by
  have hff : ∀ x : Nat, x &&& 0xFF = x % 256 := fun x => by
    have := Nat.and_pow_two_sub_one_eq_mod x 8
    simpa using this
  have s24 : k >>> 24 = k / 16777216 := Nat.shiftRight_eq_div_pow k 24
  have s16 : k >>> 16 = k / 65536 := Nat.shiftRight_eq_div_pow k 16
  have s8 : k >>> 8 = k / 256 := Nat.shiftRight_eq_div_pow k 8
  simp only [hff, s24, s16, s8]
  refine ⟨?_, ?_, ?_, ?_, ?_⟩ <;> first | trivial | omega

/-! ## The driver -/

/-- The key bytes as the driver stores them (each truncated to a byte). -/
theorem keyFrameBytes_eq (hdr svc kind k : Nat) (hk : k < 2 ^ 32) :
    keyFrameBytes hdr svc kind k =
      [hdr, svc, kind, (k >>> 24) % 256, (k >>> 16) % 256, (k >>> 8) % 256, k % 256, 0] := by
  obtain ⟨h1, h2, h3, h4, -⟩ := key_bytes k hk
  unfold keyFrameBytes
  rw [h1, h2, h3, h4]

/-- A byte is unchanged by truncation to a byte. -/
theorem byte_mod (a : uint8_t) : a.val % 256 = a.val := Nat.mod_eq_of_lt a.isLt

/-- The frames written by `GwmAuthentication`, branch by branch. -/
theorem GwmAuthentication_table (c : Platform) (currentBus : canbus) (serviceId : uint8_t)
    (data : Nat → uint8_t) :
    GwmAuthentication c currentBus serviceId data =
      if serviceId = c.VEHICLE_POLL_TYPE_OBDIISESSION then
        if (data 1).val = 0x01 then
          [gwmFrame c currentBus [0x02, c.VEHICLE_POLL_TYPE_OBDIISESSION.val, 0x03, 0, 0, 0, 0, 0]]
        else if (data 1).val = 0x03 then
          [gwmFrame c currentBus
            [0x06, c.VEHICLE_POLL_TYPE_SECACCESS.val, 0x41, 0x3E, 0xAB, 0x00, 0x0D, 0]]
        else []
      else if serviceId = c.VEHICLE_POLL_TYPE_SECACCESS then
        if (data 1).val = 0x41 then
          [gwmFrame c currentBus
            (keyFrameBytes 0x06 c.VEHICLE_POLL_TYPE_SECACCESS.val 0x42 (pass1 (seedBE data)))]
        else if (data 1).val = 0x42 then
          [gwmFrame c currentBus [0x02, c.VEHICLE_POLL_TYPE_SECACCESS.val, 0x01, 0, 0, 0, 0, 0]]
        else if (data 1).val = 0x01 then
          [gwmFrame c currentBus
            (keyFrameBytes 0x06 c.VEHICLE_POLL_TYPE_SECACCESS.val 0x02 (pass2 (seedBE data)))]
        else if (data 1).val = 0x02 then
          [gwmFrame c currentBus
            [0x05, c.VEHICLE_POLL_TYPE_ROUTINECONTROL.val, 0x01, 0xAA, 0xFF, 0x00, 0, 0]]
        else []
      else if serviceId = c.VEHICLE_POLL_TYPE_ROUTINECONTROL then
        if (data 1).val = 0x01 then
          [gwmFrame c currentBus
            [0x04, c.VEHICLE_POLL_TYPE_ROUTINECONTROL.val, 0x03, 0xAA, 0xFF, 0, 0, 0]]
        else []
      else [] := by
  rw [keyFrameBytes_eq _ _ _ _ (pass1_lt _), keyFrameBytes_eq _ _ _ _ (pass2_lt _),
    ← seedOf_eq_seedBE]
  unfold GwmAuthentication
  split_ifs <;>
    simp only [CAN_frame_t.setU8, canbus.doWrite, gwmFrame, ISOTP_FT_SINGLE, List.set,
      byte_mod, if_true, if_false] <;> rfl

/-- The value of a byte that equals the literal `n`. -/
theorem val_of_eq {a : uint8_t} {n : Nat} (hn : n < 256) (h : a = Fin.ofNat n) : a.val = n := by
  subst h
  exact Nat.mod_eq_of_lt hn

/-- Bytes `3..6` of a key frame, read big-endian, are the key. -/
theorem readBE_keyFrame (c : Platform) (currentBus : canbus) (hdr svc kind k : Nat)
    (hk : k < 2 ^ 32) :
    ∀ f ∈ [gwmFrame c currentBus (keyFrameBytes hdr svc kind k)],
      f.data.getD 3 0 * 2 ^ 24 + f.data.getD 4 0 * 2 ^ 16 + f.data.getD 5 0 * 2 ^ 8
        + f.data.getD 6 0 = k := by
  intro f hf
  rw [List.mem_singleton] at hf
  subst hf
  exact (key_bytes k hk).2.2.2.2

/-- C1: on a response with `serviceId = SecurityAccess` and `data[1] = 0x41`,
whatever bytes `2..5` are, `GwmAuthentication` writes exactly one frame, with
data bytes `[0x06, SecurityAccess, 0x42, k>>24, (k>>16)&0xFF, (k>>8)&0xFF,
k&0xFF, 0x00]` where `k = pass1 seed` and `seed` is the big-endian value of
`data[2..6)`; bytes `3..6` of that frame read big-endian give back `pass1 seed`. -/
theorem GwmAuthentication_seed1 (c : Platform) (currentBus : canbus) (serviceId : uint8_t)
    (data : Nat → uint8_t) (hc : c.Distinct)
    (hs : serviceId = c.VEHICLE_POLL_TYPE_SECACCESS) (h1 : data 1 = 0x41) :
    GwmAuthentication c currentBus serviceId data =
      [gwmFrame c currentBus
        (keyFrameBytes 0x06 c.VEHICLE_POLL_TYPE_SECACCESS.val 0x42 (pass1 (seedBE data)))] ∧
    ∀ f ∈ GwmAuthentication c currentBus serviceId data,
      f.data.getD 3 0 * 2 ^ 24 + f.data.getD 4 0 * 2 ^ 16 + f.data.getD 5 0 * 2 ^ 8
        + f.data.getD 6 0 = pass1 (seedBE data) := by
  have hne : c.VEHICLE_POLL_TYPE_SECACCESS ≠ c.VEHICLE_POLL_TYPE_OBDIISESSION :=
    fun h => hc.1 h.symm
  have e1 : (data 1).val = 0x41 := val_of_eq (by norm_num) h1
  have hg : GwmAuthentication c currentBus serviceId data =
      [gwmFrame c currentBus
        (keyFrameBytes 0x06 c.VEHICLE_POLL_TYPE_SECACCESS.val 0x42 (pass1 (seedBE data)))] := by
    rw [GwmAuthentication_table, hs, if_neg hne, if_pos rfl, if_pos e1]
  rw [hg]
  exact ⟨rfl, readBE_keyFrame _ _ _ _ _ _ (pass1_lt _)⟩

/-- C2: on a response with `serviceId = SecurityAccess` and `data[1] = 0x01`,
whatever bytes `2..5` are, `GwmAuthentication` writes exactly one frame, with
data bytes `[0x06, SecurityAccess, 0x02, k>>24, (k>>16)&0xFF, (k>>8)&0xFF,
k&0xFF, 0x00]` where `k = pass2 seed` and `seed` is the big-endian value of
`data[2..6)`. -/
theorem GwmAuthentication_seed2 (c : Platform) (currentBus : canbus) (serviceId : uint8_t)
    (data : Nat → uint8_t) (hc : c.Distinct)
    (hs : serviceId = c.VEHICLE_POLL_TYPE_SECACCESS) (h1 : data 1 = 0x01) :
    GwmAuthentication c currentBus serviceId data =
      [gwmFrame c currentBus
        (keyFrameBytes 0x06 c.VEHICLE_POLL_TYPE_SECACCESS.val 0x02 (pass2 (seedBE data)))] := by
  have hne : c.VEHICLE_POLL_TYPE_SECACCESS ≠ c.VEHICLE_POLL_TYPE_OBDIISESSION :=
    fun h => hc.1 h.symm
  have e1 : (data 1).val = 0x01 := val_of_eq (by norm_num) h1
  rw [GwmAuthentication_table, hs, if_neg hne, if_pos rfl, e1]
  rfl

/-- The service identifiers of `udsPlatform` are pairwise different. -/
theorem udsPlatform_distinct : udsPlatform.Distinct :=
  ⟨by decide, by decide, by decide⟩

/-- The seed-1 response carrying `0x12345678`, on the instance `udsPlatform`,
`goodBus`. -/
theorem GwmAuthentication_seed1_witness :
    udsPlatform.Distinct ∧
    (0x27 : uint8_t) = udsPlatform.VEHICLE_POLL_TYPE_SECACCESS ∧
    seedResponse 0x41 0x12345678 1 = 0x41 ∧
    (GwmAuthentication udsPlatform goodBus 0x27 (seedResponse 0x41 0x12345678) =
      [gwmFrame udsPlatform goodBus
        (keyFrameBytes 0x06 udsPlatform.VEHICLE_POLL_TYPE_SECACCESS.val 0x42
          (pass1 (seedBE (seedResponse 0x41 0x12345678))))] ∧
    ∀ f ∈ GwmAuthentication udsPlatform goodBus 0x27 (seedResponse 0x41 0x12345678),
      f.data.getD 3 0 * 2 ^ 24 + f.data.getD 4 0 * 2 ^ 16 + f.data.getD 5 0 * 2 ^ 8
        + f.data.getD 6 0 = pass1 (seedBE (seedResponse 0x41 0x12345678))) :=
  ⟨udsPlatform_distinct, rfl, rfl,
    GwmAuthentication_seed1 udsPlatform goodBus 0x27 (seedResponse 0x41 0x12345678)
      udsPlatform_distinct rfl rfl⟩

/-- The seed-2 response carrying `0x9ABCDEF0`, on the instance `udsPlatform`,
`goodBus`. -/
theorem GwmAuthentication_seed2_witness :
    udsPlatform.Distinct ∧
    (0x27 : uint8_t) = udsPlatform.VEHICLE_POLL_TYPE_SECACCESS ∧
    seedResponse 0x01 0x9ABCDEF0 1 = 0x01 ∧
    GwmAuthentication udsPlatform goodBus 0x27 (seedResponse 0x01 0x9ABCDEF0) =
      [gwmFrame udsPlatform goodBus
        (keyFrameBytes 0x06 udsPlatform.VEHICLE_POLL_TYPE_SECACCESS.val 0x02
          (pass2 (seedBE (seedResponse 0x01 0x9ABCDEF0))))] :=
  ⟨udsPlatform_distinct, rfl, rfl,
    GwmAuthentication_seed2 udsPlatform goodBus 0x27 (seedResponse 0x01 0x9ABCDEF0)
      udsPlatform_distinct rfl rfl⟩

/-- C3: the five constant rows of the protocol table. Whatever the other
bytes of the response are, `GwmAuthentication` writes exactly one frame:
`(DiagnosticSessionControl, 0x01)` gives `[0x02, DiagnosticSessionControl, 0x03, 0,0,0,0,0]`;
`(DiagnosticSessionControl, 0x03)` gives `[0x06, SecurityAccess, 0x41, 0x3E, 0xAB, 0x00, 0x0D, 0]`;
`(SecurityAccess, 0x42)` gives `[0x02, SecurityAccess, 0x01, 0,0,0,0,0]`;
`(SecurityAccess, 0x02)` gives `[0x05, RoutineControl, 0x01, 0xAA, 0xFF, 0x00, 0, 0]`;
`(RoutineControl, 0x01)` gives `[0x04, RoutineControl, 0x03, 0xAA, 0xFF, 0,0,0]`. -/
theorem GwmAuthentication_constant_rows (c : Platform) (currentBus : canbus)
    (data : Nat → uint8_t) (hc : c.Distinct) :
    (data 1 = 0x01 →
      GwmAuthentication c currentBus c.VEHICLE_POLL_TYPE_OBDIISESSION data =
        [gwmFrame c currentBus
          [0x02, c.VEHICLE_POLL_TYPE_OBDIISESSION.val, 0x03, 0, 0, 0, 0, 0]]) ∧
    (data 1 = 0x03 →
      GwmAuthentication c currentBus c.VEHICLE_POLL_TYPE_OBDIISESSION data =
        [gwmFrame c currentBus
          [0x06, c.VEHICLE_POLL_TYPE_SECACCESS.val, 0x41, 0x3E, 0xAB, 0x00, 0x0D, 0]]) ∧
    (data 1 = 0x42 →
      GwmAuthentication c currentBus c.VEHICLE_POLL_TYPE_SECACCESS data =
        [gwmFrame c currentBus
          [0x02, c.VEHICLE_POLL_TYPE_SECACCESS.val, 0x01, 0, 0, 0, 0, 0]]) ∧
    (data 1 = 0x02 →
      GwmAuthentication c currentBus c.VEHICLE_POLL_TYPE_SECACCESS data =
        [gwmFrame c currentBus
          [0x05, c.VEHICLE_POLL_TYPE_ROUTINECONTROL.val, 0x01, 0xAA, 0xFF, 0x00, 0, 0]]) ∧
    (data 1 = 0x01 →
      GwmAuthentication c currentBus c.VEHICLE_POLL_TYPE_ROUTINECONTROL data =
        [gwmFrame c currentBus
          [0x04, c.VEHICLE_POLL_TYPE_ROUTINECONTROL.val, 0x03, 0xAA, 0xFF, 0, 0, 0]]) := by
  obtain ⟨h12, h13, h23⟩ := hc
  refine ⟨?_, ?_, ?_, ?_, ?_⟩ <;> intro h1
  · rw [GwmAuthentication_table, if_pos rfl, val_of_eq (by norm_num) h1]
    rfl
  · rw [GwmAuthentication_table, if_pos rfl, val_of_eq (by norm_num) h1]
    rfl
  · rw [GwmAuthentication_table, if_neg (Ne.symm h12), if_pos rfl, val_of_eq (by norm_num) h1]
    rfl
  · rw [GwmAuthentication_table, if_neg (Ne.symm h12), if_pos rfl, val_of_eq (by norm_num) h1]
    rfl
  · rw [GwmAuthentication_table, if_neg (Ne.symm h13), if_neg (Ne.symm h23), if_pos rfl,
      val_of_eq (by norm_num) h1]
    rfl

/-- The five constant rows on the instance `udsPlatform`, `goodBus`. -/
theorem GwmAuthentication_constant_rows_witness :
    udsPlatform.Distinct ∧
    GwmAuthentication udsPlatform goodBus 0x10 (bytes [0x02, 0x01]) =
      [gwmFrame udsPlatform goodBus [0x02, 0x10, 0x03, 0, 0, 0, 0, 0]] ∧
    GwmAuthentication udsPlatform goodBus 0x10 (bytes [0x02, 0x03]) =
      [gwmFrame udsPlatform goodBus [0x06, 0x27, 0x41, 0x3E, 0xAB, 0x00, 0x0D, 0]] ∧
    GwmAuthentication udsPlatform goodBus 0x27 (bytes [0x02, 0x42]) =
      [gwmFrame udsPlatform goodBus [0x02, 0x27, 0x01, 0, 0, 0, 0, 0]] ∧
    GwmAuthentication udsPlatform goodBus 0x27 (bytes [0x02, 0x02]) =
      [gwmFrame udsPlatform goodBus [0x05, 0x31, 0x01, 0xAA, 0xFF, 0x00, 0, 0]] ∧
    GwmAuthentication udsPlatform goodBus 0x31 (bytes [0x02, 0x01]) =
      [gwmFrame udsPlatform goodBus [0x04, 0x31, 0x03, 0xAA, 0xFF, 0, 0, 0]] :=
  ⟨udsPlatform_distinct,
    (GwmAuthentication_constant_rows udsPlatform goodBus (bytes [0x02, 0x01])
      udsPlatform_distinct).1 rfl,
    (GwmAuthentication_constant_rows udsPlatform goodBus (bytes [0x02, 0x03])
      udsPlatform_distinct).2.1 rfl,
    (GwmAuthentication_constant_rows udsPlatform goodBus (bytes [0x02, 0x42])
      udsPlatform_distinct).2.2.1 rfl,
    (GwmAuthentication_constant_rows udsPlatform goodBus (bytes [0x02, 0x02])
      udsPlatform_distinct).2.2.2.1 rfl,
    (GwmAuthentication_constant_rows udsPlatform goodBus (bytes [0x02, 0x01])
      udsPlatform_distinct).2.2.2.2 rfl⟩

/-- C4: `GwmAuthentication` writes nothing off the table. For every
`serviceId` and every response, if `(serviceId, data[1])` is none of the
seven sending rows then no frame is written; in particular none is written
on the terminal row `(RoutineControl, 0x03)`, and none for a `serviceId`
other than the three known ones. -/
theorem GwmAuthentication_off_table (c : Platform) (currentBus : canbus) :
    (∀ (serviceId : uint8_t) (data : Nat → uint8_t),
      ¬ ((serviceId = c.VEHICLE_POLL_TYPE_OBDIISESSION ∧ data 1 = 0x01) ∨
         (serviceId = c.VEHICLE_POLL_TYPE_OBDIISESSION ∧ data 1 = 0x03) ∨
         (serviceId = c.VEHICLE_POLL_TYPE_SECACCESS ∧ data 1 = 0x41) ∨
         (serviceId = c.VEHICLE_POLL_TYPE_SECACCESS ∧ data 1 = 0x42) ∨
         (serviceId = c.VEHICLE_POLL_TYPE_SECACCESS ∧ data 1 = 0x01) ∨
         (serviceId = c.VEHICLE_POLL_TYPE_SECACCESS ∧ data 1 = 0x02) ∨
         (serviceId = c.VEHICLE_POLL_TYPE_ROUTINECONTROL ∧ data 1 = 0x01)) →
      GwmAuthentication c currentBus serviceId data = []) ∧
    (c.Distinct → ∀ data : Nat → uint8_t, data 1 = 0x03 →
      GwmAuthentication c currentBus c.VEHICLE_POLL_TYPE_ROUTINECONTROL data = []) ∧
    (∀ (serviceId : uint8_t) (data : Nat → uint8_t),
      serviceId ≠ c.VEHICLE_POLL_TYPE_OBDIISESSION →
      serviceId ≠ c.VEHICLE_POLL_TYPE_SECACCESS →
      serviceId ≠ c.VEHICLE_POLL_TYPE_ROUTINECONTROL →
      GwmAuthentication c currentBus serviceId data = []) := by
  have hv : ∀ (a : uint8_t) (n : Nat), n < 256 → a.val = n → a = Fin.ofNat n := by
    intro a n hn h
    apply Fin.ext
    rw [h]
    exact (Nat.mod_eq_of_lt hn).symm
  refine ⟨?_, ?_, ?_⟩
  · intro serviceId data h
    simp only [not_or, not_and] at h
    obtain ⟨h1, h2, h3, h4, h5, h6, h7⟩ := h
    rw [GwmAuthentication_table]
    split_ifs
    all_goals first
      | rfl
      | exact absurd (hv _ 0x01 (by norm_num) (by assumption)) (h1 (by assumption))
      | exact absurd (hv _ 0x03 (by norm_num) (by assumption)) (h2 (by assumption))
      | exact absurd (hv _ 0x41 (by norm_num) (by assumption)) (h3 (by assumption))
      | exact absurd (hv _ 0x42 (by norm_num) (by assumption)) (h4 (by assumption))
      | exact absurd (hv _ 0x01 (by norm_num) (by assumption)) (h5 (by assumption))
      | exact absurd (hv _ 0x02 (by norm_num) (by assumption)) (h6 (by assumption))
      | exact absurd (hv _ 0x01 (by norm_num) (by assumption)) (h7 (by assumption))
  · intro hc data h1
    obtain ⟨h12, h13, h23⟩ := hc
    rw [GwmAuthentication_table, if_neg (Ne.symm h13), if_neg (Ne.symm h23), if_pos rfl,
      val_of_eq (by norm_num) h1]
    rfl
  · intro serviceId data h1 h2 h3
    rw [GwmAuthentication_table, if_neg h1, if_neg h2, if_neg h3]

/-- Off the table on the instance `udsPlatform`, `goodBus`: the terminal row
`(0x31, 0x03)` and the unknown service `0x22`. -/
theorem GwmAuthentication_off_table_witness :
    ¬ (((0x31 : uint8_t) = udsPlatform.VEHICLE_POLL_TYPE_OBDIISESSION ∧ bytes [0x02, 0x03] 1 = 0x01) ∨
       ((0x31 : uint8_t) = udsPlatform.VEHICLE_POLL_TYPE_OBDIISESSION ∧ bytes [0x02, 0x03] 1 = 0x03) ∨
       ((0x31 : uint8_t) = udsPlatform.VEHICLE_POLL_TYPE_SECACCESS ∧ bytes [0x02, 0x03] 1 = 0x41) ∨
       ((0x31 : uint8_t) = udsPlatform.VEHICLE_POLL_TYPE_SECACCESS ∧ bytes [0x02, 0x03] 1 = 0x42) ∨
       ((0x31 : uint8_t) = udsPlatform.VEHICLE_POLL_TYPE_SECACCESS ∧ bytes [0x02, 0x03] 1 = 0x01) ∨
       ((0x31 : uint8_t) = udsPlatform.VEHICLE_POLL_TYPE_SECACCESS ∧ bytes [0x02, 0x03] 1 = 0x02) ∨
       ((0x31 : uint8_t) = udsPlatform.VEHICLE_POLL_TYPE_ROUTINECONTROL ∧ bytes [0x02, 0x03] 1 = 0x01)) ∧
    GwmAuthentication udsPlatform goodBus 0x31 (bytes [0x02, 0x03]) = [] ∧
    GwmAuthentication udsPlatform goodBus udsPlatform.VEHICLE_POLL_TYPE_ROUTINECONTROL
      (bytes [0x02, 0x03]) = [] ∧
    GwmAuthentication udsPlatform goodBus 0x22 (bytes [0x02, 0x01]) = [] :=
  ⟨by decide,
    (GwmAuthentication_off_table udsPlatform goodBus).1 0x31 (bytes [0x02, 0x03]) (by decide),
    (GwmAuthentication_off_table udsPlatform goodBus).2.1 udsPlatform_distinct
      (bytes [0x02, 0x03]) rfl,
    (GwmAuthentication_off_table udsPlatform goodBus).2.2 0x22 (bytes [0x02, 0x01])
      (by decide) (by decide) (by decide)⟩

/-- C5: the end-to-end handshake. For every pair of seeds `s1`, `s2`, handing
`GwmAuthentication` the responses `(DiagnosticSessionControl,0x01)`,
`(DiagnosticSessionControl,0x03)`, `(SecurityAccess,0x41,seed=s1)`,
`(SecurityAccess,0x42)`, `(SecurityAccess,0x01,seed=s2)`, `(SecurityAccess,0x02)`,
`(RoutineControl,0x01)`, `(RoutineControl,0x03)` in that order writes exactly
seven frames, in order: session-3 request, seed-1 request, key-1 frame with
`pass1 s1` big-endian, seed-2 request, key-2 frame with `pass2 s2` big-endian,
routine-1 close, routine-3 close; the eighth call writes no frame. -/
theorem handshake_end_to_end (c : Platform) (currentBus : canbus) (hc : c.Distinct)
    (s1 s2 : Nat) (d1 d2 d3 d4 d5 d6 d7 d8 : Nat → uint8_t)
    (h1 : d1 1 = 0x01) (h2 : d2 1 = 0x03)
    (h3 : d3 1 = 0x41) (hs1 : seedBE d3 = s1)
    (h4 : d4 1 = 0x42)
    (h5 : d5 1 = 0x01) (hs2 : seedBE d5 = s2)
    (h6 : d6 1 = 0x02) (h7 : d7 1 = 0x01) (h8 : d8 1 = 0x03) :
    feed c currentBus
      [(c.VEHICLE_POLL_TYPE_OBDIISESSION, d1), (c.VEHICLE_POLL_TYPE_OBDIISESSION, d2),
       (c.VEHICLE_POLL_TYPE_SECACCESS, d3), (c.VEHICLE_POLL_TYPE_SECACCESS, d4),
       (c.VEHICLE_POLL_TYPE_SECACCESS, d5), (c.VEHICLE_POLL_TYPE_SECACCESS, d6),
       (c.VEHICLE_POLL_TYPE_ROUTINECONTROL, d7), (c.VEHICLE_POLL_TYPE_ROUTINECONTROL, d8)] =
      [gwmFrame c currentBus [0x02, c.VEHICLE_POLL_TYPE_OBDIISESSION.val, 0x03, 0, 0, 0, 0, 0],
       gwmFrame c currentBus
         [0x06, c.VEHICLE_POLL_TYPE_SECACCESS.val, 0x41, 0x3E, 0xAB, 0x00, 0x0D, 0],
       gwmFrame c currentBus
         (keyFrameBytes 0x06 c.VEHICLE_POLL_TYPE_SECACCESS.val 0x42 (pass1 s1)),
       gwmFrame c currentBus [0x02, c.VEHICLE_POLL_TYPE_SECACCESS.val, 0x01, 0, 0, 0, 0, 0],
       gwmFrame c currentBus
         (keyFrameBytes 0x06 c.VEHICLE_POLL_TYPE_SECACCESS.val 0x02 (pass2 s2)),
       gwmFrame c currentBus
         [0x05, c.VEHICLE_POLL_TYPE_ROUTINECONTROL.val, 0x01, 0xAA, 0xFF, 0x00, 0, 0],
       gwmFrame c currentBus
         [0x04, c.VEHICLE_POLL_TYPE_ROUTINECONTROL.val, 0x03, 0xAA, 0xFF, 0, 0, 0]] ∧
    GwmAuthentication c currentBus c.VEHICLE_POLL_TYPE_ROUTINECONTROL d8 = [] := by
  obtain ⟨h12, h13, h23⟩ := hc
  have g1 := GwmAuthentication_table c currentBus c.VEHICLE_POLL_TYPE_OBDIISESSION d1
  have g2 := GwmAuthentication_table c currentBus c.VEHICLE_POLL_TYPE_OBDIISESSION d2
  have g3 := GwmAuthentication_table c currentBus c.VEHICLE_POLL_TYPE_SECACCESS d3
  have g4 := GwmAuthentication_table c currentBus c.VEHICLE_POLL_TYPE_SECACCESS d4
  have g5 := GwmAuthentication_table c currentBus c.VEHICLE_POLL_TYPE_SECACCESS d5
  have g6 := GwmAuthentication_table c currentBus c.VEHICLE_POLL_TYPE_SECACCESS d6
  have g7 := GwmAuthentication_table c currentBus c.VEHICLE_POLL_TYPE_ROUTINECONTROL d7
  have g8 := GwmAuthentication_table c currentBus c.VEHICLE_POLL_TYPE_ROUTINECONTROL d8
  rw [if_pos rfl, val_of_eq (by norm_num) h1] at g1
  rw [if_pos rfl, val_of_eq (by norm_num) h2] at g2
  rw [if_neg (Ne.symm h12), if_pos rfl, val_of_eq (by norm_num) h3, hs1] at g3
  rw [if_neg (Ne.symm h12), if_pos rfl, val_of_eq (by norm_num) h4] at g4
  rw [if_neg (Ne.symm h12), if_pos rfl, val_of_eq (by norm_num) h5, hs2] at g5
  rw [if_neg (Ne.symm h12), if_pos rfl, val_of_eq (by norm_num) h6] at g6
  rw [if_neg (Ne.symm h13), if_neg (Ne.symm h23), if_pos rfl, val_of_eq (by norm_num) h7] at g7
  rw [if_neg (Ne.symm h13), if_neg (Ne.symm h23), if_pos rfl, val_of_eq (by norm_num) h8] at g8
  refine ⟨?_, g8⟩
  simp only [feed, List.foldl, g1, g2, g3, g4, g5, g6, g7, g8]
  rfl

/-- The handshake with the seeds `0x12345678` and `0x9ABCDEF0`, on the instance
`udsPlatform`, `goodBus`. -/
theorem handshake_end_to_end_witness :
    udsPlatform.Distinct ∧
    seedBE (seedResponse 0x41 0x12345678) = 0x12345678 ∧
    seedBE (seedResponse 0x01 0x9ABCDEF0) = 0x9ABCDEF0 ∧
    (feed udsPlatform goodBus
      [(0x10, bytes [0x02, 0x01]), (0x10, bytes [0x02, 0x03]),
       (0x27, seedResponse 0x41 0x12345678), (0x27, bytes [0x02, 0x42]),
       (0x27, seedResponse 0x01 0x9ABCDEF0), (0x27, bytes [0x02, 0x02]),
       (0x31, bytes [0x02, 0x01]), (0x31, bytes [0x02, 0x03])] =
      [gwmFrame udsPlatform goodBus [0x02, 0x10, 0x03, 0, 0, 0, 0, 0],
       gwmFrame udsPlatform goodBus [0x06, 0x27, 0x41, 0x3E, 0xAB, 0x00, 0x0D, 0],
       gwmFrame udsPlatform goodBus (keyFrameBytes 0x06 0x27 0x42 (pass1 0x12345678)),
       gwmFrame udsPlatform goodBus [0x02, 0x27, 0x01, 0, 0, 0, 0, 0],
       gwmFrame udsPlatform goodBus (keyFrameBytes 0x06 0x27 0x02 (pass2 0x9ABCDEF0)),
       gwmFrame udsPlatform goodBus [0x05, 0x31, 0x01, 0xAA, 0xFF, 0x00, 0, 0],
       gwmFrame udsPlatform goodBus [0x04, 0x31, 0x03, 0xAA, 0xFF, 0, 0, 0]] ∧
    GwmAuthentication udsPlatform goodBus 0x31 (bytes [0x02, 0x03]) = []) :=
  ⟨udsPlatform_distinct, by decide, by decide,
    handshake_end_to_end udsPlatform goodBus udsPlatform_distinct 0x12345678 0x9ABCDEF0
      (bytes [0x02, 0x01]) (bytes [0x02, 0x03]) (seedResponse 0x41 0x12345678)
      (bytes [0x02, 0x42]) (seedResponse 0x01 0x9ABCDEF0) (bytes [0x02, 0x02])
      (bytes [0x02, 0x01]) (bytes [0x02, 0x03])
      rfl rfl rfl (by decide) rfl rfl (by decide) rfl rfl rfl⟩

/-- C8 (amended): `StartAuthentication` writes exactly one frame, whatever
bus is passed: header byte `0x02` (single-frame tag `0`, length `2`), service
byte `DiagnosticSessionControl`, sub-function byte `0x01`, bytes `3..7` zero. -/
theorem StartAuthentication_frame (c : Platform) (currentBus : canbus) :
    (StartAuthentication c currentBus).2 =
      [gwmFrame c currentBus [0x02, c.VEHICLE_POLL_TYPE_OBDIISESSION.val, 0x01, 0, 0, 0, 0, 0]] :=
  rfl

/-- C8 (as stated) fails: the one frame written by `StartAuthentication` does
not have header byte `0x12`; its data bytes are `[0x02, 0x10, 0x01, 0,0,0,0,0]`
on the instance `udsPlatform`, `goodBus`. -/
theorem StartAuthentication_header_ne_0x12 :
    (StartAuthentication udsPlatform goodBus).2.map CAN_frame_t.data
      = [[0x02, 0x10, 0x01, 0, 0, 0, 0, 0]] ∧
    ¬ ∃ f, (StartAuthentication udsPlatform goodBus).2 = [f] ∧
        f.data = [0x12, udsPlatform.VEHICLE_POLL_TYPE_OBDIISESSION.val, 0x01, 0, 0, 0, 0, 0] := by
  refine ⟨rfl, ?_⟩
  rintro ⟨f, hf, hd⟩
  have h : (StartAuthentication udsPlatform goodBus).2
      = [gwmFrame udsPlatform goodBus [0x02, 0x10, 0x01, 0, 0, 0, 0, 0]] := rfl
  rw [h] at hf
  have hf' := List.head_eq_of_cons_eq hf
  rw [← hf'] at hd
  simp [gwmFrame] at hd

/-- C9: `StartAuthentication` hands exactly one frame to the transport,
whether or not the write fails, and returns `true` if and only if the result
of that write is not `ESP_FAIL`. -/
theorem StartAuthentication_result (c : Platform) (currentBus : canbus) :
    ∃ f, (StartAuthentication c currentBus).2 = [f] ∧
      ((StartAuthentication c currentBus).1 = true ↔ currentBus.Write f ≠ c.ESP_FAIL) := by
  refine ⟨_, rfl, ?_⟩
  simp [StartAuthentication, canbus.doWrite]

/-- `StartAuthentication` on a bus that accepts the frame and on a bus that
rejects it: one frame is handed over in both cases. -/
theorem StartAuthentication_on_buses :
    StartAuthentication udsPlatform goodBus =
      (true, [gwmFrame udsPlatform goodBus [0x02, 0x10, 0x01, 0, 0, 0, 0, 0]]) ∧
    StartAuthentication udsPlatform badBus =
      (false, [gwmFrame udsPlatform badBus [0x02, 0x10, 0x01, 0, 0, 0, 0, 0]]) :=
  ⟨rfl, rfl⟩

/-- C10: the frame-shape invariant. Every frame written by `GwmAuthentication`
has eight data bytes; byte 0 has high nibble `0` and low nibble `L` with
`2 ≤ L ≤ 6`; every byte at an index above `L`, up to index 7, is zero. -/
theorem GwmAuthentication_frame_shape (c : Platform) (currentBus : canbus)
    (serviceId : uint8_t) (data : Nat → uint8_t) (f : CAN_frame_t)
    (hf : f ∈ GwmAuthentication c currentBus serviceId data) :
    f.data.length = 8 ∧
    f.data.getD 0 0 >>> 4 = 0 ∧
    2 ≤ f.data.getD 0 0 &&& 0x0F ∧ f.data.getD 0 0 &&& 0x0F ≤ 6 ∧
    ∀ k, f.data.getD 0 0 &&& 0x0F < k → k ≤ 7 → f.data.getD k 0 = 0 := by
  rw [GwmAuthentication_table] at hf
  split_ifs at hf
  all_goals first
    | exact absurd hf (List.not_mem_nil _)
    | (rw [List.mem_singleton] at hf
       subst hf
       simp only [gwmFrame, keyFrameBytes, List.getD_cons_zero]
       refine ⟨rfl, by decide, by decide, by decide, ?_⟩
       intro k hk1 hk2
       first
         | (have h : 2 < k := hk1
            interval_cases k <;> rfl)
         | (have h : 4 < k := hk1
            interval_cases k <;> rfl)
         | (have h : 5 < k := hk1
            interval_cases k <;> rfl)
         | (have h : 6 < k := hk1
            interval_cases k
            rfl))

/-- The shape of the session-3 request, on the instance `udsPlatform`, `goodBus`. -/
theorem GwmAuthentication_frame_shape_witness :
    gwmFrame udsPlatform goodBus [0x02, 0x10, 0x03, 0, 0, 0, 0, 0] ∈
      GwmAuthentication udsPlatform goodBus 0x10 (bytes [0x02, 0x01]) ∧
    ((gwmFrame udsPlatform goodBus [0x02, 0x10, 0x03, 0, 0, 0, 0, 0]).data.length = 8 ∧
     (gwmFrame udsPlatform goodBus [0x02, 0x10, 0x03, 0, 0, 0, 0, 0]).data.getD 0 0 >>> 4 = 0 ∧
     2 ≤ (gwmFrame udsPlatform goodBus [0x02, 0x10, 0x03, 0, 0, 0, 0, 0]).data.getD 0 0 &&& 0x0F ∧
     (gwmFrame udsPlatform goodBus [0x02, 0x10, 0x03, 0, 0, 0, 0, 0]).data.getD 0 0 &&& 0x0F ≤ 6 ∧
     ∀ k, (gwmFrame udsPlatform goodBus [0x02, 0x10, 0x03, 0, 0, 0, 0, 0]).data.getD 0 0 &&& 0x0F < k →
       k ≤ 7 → (gwmFrame udsPlatform goodBus [0x02, 0x10, 0x03, 0, 0, 0, 0, 0]).data.getD k 0 = 0) :=
  ⟨by decide,
    GwmAuthentication_frame_shape udsPlatform goodBus 0x10 (bytes [0x02, 0x01])
      (gwmFrame udsPlatform goodBus [0x02, 0x10, 0x03, 0, 0, 0, 0, 0]) (by decide)⟩

/-! ## Further properties of the driver -/

/-- C11: bytes 0, 6 and 7 of the response never influence the result. For
every `serviceId` and every two buffers `p`, `q` that agree on bytes `1..5`,
`GwmAuthentication` writes the same frames (the same frame, or none). -/
theorem GwmAuthentication_ignores_bytes_0_6_7 (c : Platform) (currentBus : canbus)
    (serviceId : uint8_t) (p q : Nat → uint8_t)
    (h : p 1 = q 1 ∧ p 2 = q 2 ∧ p 3 = q 3 ∧ p 4 = q 4 ∧ p 5 = q 5) :
    GwmAuthentication c currentBus serviceId p = GwmAuthentication c currentBus serviceId q := by
  obtain ⟨h1, h2, h3, h4, h5⟩ := h
  have hs : seedBE p = seedBE q := by
    unfold seedBE
    rw [h2, h3, h4, h5]
  rw [GwmAuthentication_table, GwmAuthentication_table, h1, hs]

/-- Two seed-1 responses that differ in bytes 0, 6 and 7 only. -/
theorem GwmAuthentication_ignores_bytes_0_6_7_witness :
    (bytes [0x06, 0x41, 0x12, 0x34, 0x56, 0x78, 0xAA, 0xBB] 1
        = bytes [0x00, 0x41, 0x12, 0x34, 0x56, 0x78, 0x00, 0x55] 1 ∧
     bytes [0x06, 0x41, 0x12, 0x34, 0x56, 0x78, 0xAA, 0xBB] 2
        = bytes [0x00, 0x41, 0x12, 0x34, 0x56, 0x78, 0x00, 0x55] 2 ∧
     bytes [0x06, 0x41, 0x12, 0x34, 0x56, 0x78, 0xAA, 0xBB] 3
        = bytes [0x00, 0x41, 0x12, 0x34, 0x56, 0x78, 0x00, 0x55] 3 ∧
     bytes [0x06, 0x41, 0x12, 0x34, 0x56, 0x78, 0xAA, 0xBB] 4
        = bytes [0x00, 0x41, 0x12, 0x34, 0x56, 0x78, 0x00, 0x55] 4 ∧
     bytes [0x06, 0x41, 0x12, 0x34, 0x56, 0x78, 0xAA, 0xBB] 5
        = bytes [0x00, 0x41, 0x12, 0x34, 0x56, 0x78, 0x00, 0x55] 5) ∧
    GwmAuthentication udsPlatform goodBus 0x27
        (bytes [0x06, 0x41, 0x12, 0x34, 0x56, 0x78, 0xAA, 0xBB]) =
      GwmAuthentication udsPlatform goodBus 0x27
        (bytes [0x00, 0x41, 0x12, 0x34, 0x56, 0x78, 0x00, 0x55]) :=
  ⟨by decide,
    GwmAuthentication_ignores_bytes_0_6_7 udsPlatform goodBus 0x27
      (bytes [0x06, 0x41, 0x12, 0x34, 0x56, 0x78, 0xAA, 0xBB])
      (bytes [0x00, 0x41, 0x12, 0x34, 0x56, 0x78, 0x00, 0x55]) (by decide)⟩

/-! ## The feedback-shift loop -/

/-- One more pass of the loop of `iterate`. -/
theorem iterate_succ (seed n : Nat) : iterate seed (n + 1) = iterate (iterate_step seed) n := rfl

/-- The body of `pass2`. -/
theorem pass2_unfold (seed : Nat) :
    pass2 seed = iterate seed (pass2_count seed) ^^^ 0xdc8fe1ae := rfl

/-- The all-zero word is a fixed point of the loop of `iterate`. -/
theorem iterate_zero_seed (n : Nat) : iterate 0 n = 0 := by
  induction n with
  | zero => rfl
  | succ n ih =>
    rw [iterate_succ]
    have h : iterate_step 0 = 0 := by decide
    rw [h, ih]

/-- C13: the golden vector of phase 2. `pass2 0 = 0xDC8FE1AE`, because the
all-zero word is a fixed point of the feedback-shift loop: `iterate 0 n = 0`
for every count `n`. -/
theorem pass2_zero :
    pass2 0 = 0xDC8FE1AE ∧ ∀ n, iterate 0 n = 0 := by
  refine ⟨?_, iterate_zero_seed⟩
  rw [pass2_unfold, iterate_zero_seed]
  decide

/-- C20: `pass1` uses only the low 16 bits of the seed. For every seed
`pass1 seed = pass1 (seed & 0xFFFF)`, so two seeds with the same low 16 bits
have the same phase-1 key. -/
theorem pass1_low16 (seed : Nat) :
    pass1 seed = pass1 (seed &&& 0xFFFF) ∧
    ∀ other, other &&& 0xFFFF = seed &&& 0xFFFF → pass1 other = pass1 seed := by
  refine ⟨?_, ?_⟩
  · rw [pass1_unfold, pass1_unfold, Nat.and_assoc, Nat.and_self]
  · intro other h
    rw [pass1_unfold, pass1_unfold, h]

/-- The seeds `0x12345678` and `0xFFFF5678` have the same phase-1 key. -/
theorem pass1_low16_witness :
    (0xFFFF5678 : Nat) &&& 0xFFFF = 0x12345678 &&& 0xFFFF ∧
    pass1 0xFFFF5678 = pass1 0x12345678 :=
  ⟨by decide, (pass1_low16 0x12345678).2 0xFFFF5678 (by decide)⟩

/-! ## The multiply-high helper -/

/-- C15: the reciprocal-multiply reduction is exact on the range the reduced
loop uses. For every `x < 0x3EAB * 0x3EAB`, `umul_lsr45 x 0x82B87F05` is
`x / 0x3EAB` and `x - umul_lsr45(x, 0x82B87F05) * 0x3EAB` (32-bit) is
`x mod 0x3EAB`; in particular for every product of two values below `0x3EAB`
and for every `x < 2 ^ 16`. -/
theorem reduce_exact_on_loop_range :
    (∀ x, x < 0x3EAB * 0x3EAB →
      umul_lsr45 x 0x82B87F05 = x / 0x3EAB ∧
      sub32 x (mul32 (umul_lsr45 x 0x82B87F05) 0x3EAB) = x % 0x3EAB) ∧
    (∀ u v, u < 0x3EAB → v < 0x3EAB →
      umul_lsr45 (u * v) 0x82B87F05 = (u * v) / 0x3EAB ∧
      sub32 (u * v) (mul32 (umul_lsr45 (u * v) 0x82B87F05) 0x3EAB) = (u * v) % 0x3EAB) ∧
    (∀ x, x < 2 ^ 16 →
      umul_lsr45 x 0x82B87F05 = x / 0x3EAB ∧
      sub32 x (mul32 (umul_lsr45 x 0x82B87F05) 0x3EAB) = x % 0x3EAB) := by
  have key : ∀ x, x < 0x3EAB * 0x3EAB →
      umul_lsr45 x 0x82B87F05 = x / 0x3EAB ∧
      sub32 x (mul32 (umul_lsr45 x 0x82B87F05) 0x3EAB) = x % 0x3EAB := by
    intro x hx
    have hx' : x < 0xFC800000 := lt_trans hx (by norm_num)
    exact ⟨umul_lsr45_recip x hx', reduce_exact x hx'⟩
  refine ⟨key, ?_, ?_⟩
  · intro u v hu hv
    exact key (u * v) (Nat.mul_lt_mul'' hu hv)
  · intro x hx
    exact key x (lt_trans hx (by norm_num))

/-- The reduction of `0x1234 * 0x2345`, a product of two values below `0x3EAB`. -/
theorem reduce_exact_on_loop_range_witness :
    (0x1234 : Nat) < 0x3EAB ∧ (0x2345 : Nat) < 0x3EAB ∧
    (umul_lsr45 (0x1234 * 0x2345) 0x82B87F05 = (0x1234 * 0x2345) / 0x3EAB ∧
     sub32 (0x1234 * 0x2345) (mul32 (umul_lsr45 (0x1234 * 0x2345) 0x82B87F05) 0x3EAB)
       = (0x1234 * 0x2345) % 0x3EAB) :=
  ⟨by decide, by decide, reduce_exact_on_loop_range.2.1 0x1234 0x2345 (by decide) (by decide)⟩

/-- C16: the fixed-point reduction is not a generic modulo. There is a 16-bit
register value `i` (namely `0xFE96`) whose square `x = i * i`, as formed in
the first pass of the loop of `pass1`, has
`x - umul_lsr45(x, 0x82B87F05) * 0x3EAB ≠ x mod 0x3EAB`; there `x = 0xFD2DFFE4`. -/
theorem reduce_not_modulo :
    (∃ i, i < 0x10000 ∧
      sub32 (mul32 i i) (mul32 (umul_lsr45 (mul32 i i) 0x82b87f05) 0x3eab)
        ≠ (mul32 i i) % 0x3EAB) ∧
    mul32 0xFE96 0xFE96 = 0xFD2DFFE4 ∧
    sub32 0xFD2DFFE4 (mul32 (umul_lsr45 0xFD2DFFE4 0x82b87f05) 0x3eab) = 0x219D2 ∧
    0xFD2DFFE4 % 0x3EAB = 0x247A ∧
    (pass1_body 0xFE96 1 0x12e5).1 = 0x219D2 := by
  refine ⟨⟨0xFE96, by decide, by decide⟩, by decide, by decide, by decide, by decide⟩

/-- The value of `umul_lsr45` on 32-bit operands: the exact quotient of the
product by `2 ^ 45` when the middle sum stays below `2 ^ 32`, and `8` less
when it wraps. -/
theorem umul_lsr45_value (a b : Nat) (ha : a < 2 ^ 32) (hb : b < 2 ^ 32) :
    (middleSum a b < 2 ^ 32 → umul_lsr45 a b = (a * b) / 2 ^ 45) ∧
    (2 ^ 32 ≤ middleSum a b → umul_lsr45 a b + 8 = (a * b) / 2 ^ 45) := by
  rw [umul_lsr45_halves]
  unfold middleSum
  generalize hal : a % 65536 = al
  generalize hah : a / 65536 = ah
  generalize hbl : b % 65536 = bl
  generalize hbh : b / 65536 = bh
  have h1 : al ≤ 65535 := by omega
  have h2 : ah ≤ 65535 := by omega
  have h3 : bl ≤ 65535 := by omega
  have h4 : bh ≤ 65535 := by omega
  have ea : a = 65536 * ah + al := by omega
  have eb : b = 65536 * bh + bl := by omega
  have hp : al * bl ≤ 65535 * 65535 := Nat.mul_le_mul h1 h3
  have hq1 : al * bh ≤ 65535 * 65535 := Nat.mul_le_mul h1 h4
  have hq2 : bl * ah ≤ 65535 * 65535 := Nat.mul_le_mul h3 h2
  have hr : ah * bh ≤ 65535 * 65535 := Nat.mul_le_mul h2 h4
  have hab : a * b = (ah * bh) * 4294967296 + (al * bh + bl * ah) * 65536 + al * bl := by
    rw [ea, eb]
    ring
  rw [hab]
  unfold add32 mul32 U32
  generalize al * bl = p at *
  generalize al * bh = q1 at *
  generalize bl * ah = q2 at *
  generalize ah * bh = r at *
  have e45 : (2 : Nat) ^ 45 = 35184372088832 := by norm_num
  have e32 : (2 : Nat) ^ 32 = 4294967296 := by norm_num
  rw [e45, e32]
  constructor
  · intro hm
    omega
  · intro hm
    omega

/-- C14 (amended): for every pair of 32-bit values `a`, `b` whose middle sum
(the high half of the low product plus the two cross products of the 16-bit
halves) is below `2 ^ 32`, `umul_lsr45 a b` is `floor((a * b) / 2 ^ 45)`
truncated to 32 bits. The middle sum is below `2 ^ 32` when `a = 0`, and when
`b = 0x82B87F05` and `a < 0xFC800000`. -/
theorem umul_lsr45_exact_without_wrap :
    (∀ a b, a < 2 ^ 32 → b < 2 ^ 32 → middleSum a b < 2 ^ 32 →
      umul_lsr45 a b = ((a * b) / 2 ^ 45) % 2 ^ 32) ∧
    (∀ b, middleSum 0 b < 2 ^ 32) ∧
    (∀ a, a < 0xFC800000 → middleSum a 0x82B87F05 < 2 ^ 32) := by
  refine ⟨?_, ?_, ?_⟩
  · intro a b ha hb hm
    rw [(umul_lsr45_value a b ha hb).1 hm]
    have hab : a * b < 2 ^ 32 * 2 ^ 32 := Nat.mul_lt_mul'' ha hb
    have hq : (a * b) / 2 ^ 45 < 2 ^ 32 := by
      have e45 : (2 : Nat) ^ 45 = 35184372088832 := by norm_num
      have e32 : (2 : Nat) ^ 32 = 4294967296 := by norm_num
      rw [e45, e32] at *
      omega
    exact (Nat.mod_eq_of_lt hq).symm
  · intro b
    simp [middleSum]
  · intro a ha
    unfold middleSum
    have hb1 : (0x82B87F05 : Nat) % 65536 = 32517 := by decide
    have hb2 : (0x82B87F05 : Nat) / 65536 = 33464 := by decide
    rw [hb1, hb2]
    have e32 : (2 : Nat) ^ 32 = 4294967296 := by norm_num
    rw [e32]
    omega

/-- The helper at `a = 0x12345678`, `b = 0x82B87F05`, where the middle sum is
below `2 ^ 32`. -/
theorem umul_lsr45_exact_without_wrap_witness :
    (0x12345678 : Nat) < 2 ^ 32 ∧ (0x82B87F05 : Nat) < 2 ^ 32 ∧
    middleSum 0x12345678 0x82B87F05 < 2 ^ 32 ∧
    umul_lsr45 0x12345678 0x82B87F05 = ((0x12345678 * 0x82B87F05) / 2 ^ 45) % 2 ^ 32 :=
  ⟨by decide, by decide, by decide,
    umul_lsr45_exact_without_wrap.1 0x12345678 0x82B87F05 (by decide) (by decide) (by decide)⟩

/-- C14 (as stated) fails at `a = b = 0xFFFFFFFF`: the middle sum wraps, the
code gives `0x7FFF7`, and `floor((a * b) / 2 ^ 45)` is `0x7FFFF`. -/
theorem umul_lsr45_ne_exact_at_max :
    umul_lsr45 0xFFFFFFFF 0xFFFFFFFF = 0x7FFF7 ∧
    ((0xFFFFFFFF * 0xFFFFFFFF) / 2 ^ 45) % 2 ^ 32 = 0x7FFFF ∧
    umul_lsr45 0xFFFFFFFF 0xFFFFFFFF ≠ ((0xFFFFFFFF * 0xFFFFFFFF) / 2 ^ 45) % 2 ^ 32 := by
  refine ⟨by decide, by decide, by decide⟩

/-! ## Linearity of the feedback-shift loop -/

/-- Right shift distributes over XOR. -/
theorem shiftRight_xor (a b k : Nat) : (a ^^^ b) >>> k = (a >>> k) ^^^ (b >>> k) := by
  apply Nat.eq_of_testBit_eq
  intro i
  simp only [Nat.testBit_shiftRight, Nat.testBit_xor]

/-- The nested feedback expression is the XOR of bits 30, 24, 12 and 2. -/
theorem feedback_taps (v : Nat) :
    (((((((v >>> 6) ^^^ v) >>> 12) ^^^ v) >>> 10) ^^^ v) >>> 2) &&& 1
      = bitAt v 30 ^^^ bitAt v 24 ^^^ bitAt v 12 ^^^ bitAt v 2 := by
  unfold bitAt
  simp only [shiftRight_xor, ← Nat.shiftRight_add, Nat.and_xor_distrib_right]

/-- A left shift by one, as a 32-bit word, bit by bit. -/
theorem testBit_shl32_one (x i : Nat) :
    (shl32 x 1).testBit i = (decide (i < 32) && (decide (1 ≤ i) && x.testBit (i - 1))) := by
  have e : shl32 x 1 = (x <<< 1) % 2 ^ 32 := rfl
  rw [e, Nat.testBit_mod_two_pow, Nat.testBit_shiftLeft]

/-- A value masked with `1` has only bit 0. -/
theorem testBit_and_one (y i : Nat) :
    (y &&& 1).testBit i = (decide (i = 0) && y.testBit 0) := by
  rcases i with _ | i
  · simp
  · simp [Nat.testBit_and, Nat.testBit_succ]

/-- One pass of the loop of `iterate` is linear over GF(2). -/
theorem iterate_step_xor (a b : Nat) :
    iterate_step (a ^^^ b) = iterate_step a ^^^ iterate_step b := by
  apply Nat.eq_of_testBit_eq
  intro i
  unfold iterate_step
  rw [feedback_taps, feedback_taps, feedback_taps]
  unfold bitAt
  simp only [Nat.testBit_or, Nat.testBit_xor, testBit_shl32_one, testBit_and_one,
    Nat.testBit_shiftRight]
  rcases i with _ | i
  · have h0 : decide (1 ≤ 0) = false := rfl
    simp only [h0, Bool.false_and, Bool.and_false, Bool.false_or, decide_True, Bool.true_and,
      Nat.add_zero]
    generalize a.testBit 30 = a30
    generalize a.testBit 24 = a24
    generalize a.testBit 12 = a12
    generalize a.testBit 2 = a2
    generalize b.testBit 30 = b30
    generalize b.testBit 24 = b24
    generalize b.testBit 12 = b12
    generalize b.testBit 2 = b2
    revert a30 a24 a12 a2 b30 b24 b12 b2
    decide
  · cases decide (i + 1 < 32) <;> cases a.testBit i <;> cases b.testBit i <;> simp

/-- C17: the nested shift/XOR feedback expression of `iterate` is a plain
four-tap LFSR. For every `v` the expression
`(((((((v>>6)^v)>>12)^v)>>10)^v)>>2) & 1` is bit 30 XOR bit 24 XOR bit 12 XOR
bit 2 of `v`, so one step of `iterate` maps `v` to
`((v << 1) mod 2^32) | (bit30 XOR bit24 XOR bit12 XOR bit2 of v)`. -/
theorem iterate_four_tap_lfsr (v : Nat) :
    (((((((v >>> 6) ^^^ v) >>> 12) ^^^ v) >>> 10) ^^^ v) >>> 2) &&& 1
      = bitAt v 30 ^^^ bitAt v 24 ^^^ bitAt v 12 ^^^ bitAt v 2 ∧
    iterate v 1
      = ((v <<< 1) % 2 ^ 32) ||| (bitAt v 30 ^^^ bitAt v 24 ^^^ bitAt v 12 ^^^ bitAt v 2) ∧
    ∀ n, iterate v (n + 1)
      = iterate (((v <<< 1) % 2 ^ 32) |||
          (bitAt v 30 ^^^ bitAt v 24 ^^^ bitAt v 12 ^^^ bitAt v 2)) n := by
  have hs : iterate_step v
      = ((v <<< 1) % 2 ^ 32) ||| (bitAt v 30 ^^^ bitAt v 24 ^^^ bitAt v 12 ^^^ bitAt v 2) := by
    unfold iterate_step
    rw [feedback_taps]
    rfl
  refine ⟨feedback_taps v, ?_, ?_⟩
  · rw [iterate_succ, hs]
    rfl
  · intro n
    rw [iterate_succ, hs]

/-- C18: `iterate` is linear over GF(2). For every pair of values `a`, `b` and
every count `n`, `iterate (a XOR b) n = iterate a n XOR iterate b n`. -/
theorem iterate_linear (a b n : Nat) :
    iterate (a ^^^ b) n = iterate a n ^^^ iterate b n := by
  induction n generalizing a b with
  | zero => rfl
  | succ n ih =>
    rw [iterate_succ, iterate_succ, iterate_succ, iterate_step_xor, ih]

/-- The count of `pass2` is at least `0x25`, never wraps, and is decided by
bits 26..28 of the seed. -/
theorem pass2_count_eq (seed : Nat) :
    pass2_count seed = 0x24 + (((seed >>> 0x18) &&& 0x1c) ^^^ 0x08) + 1 ∧
    pass2_count seed = pass2_count (seed &&& 0x1C000000) := by
  have h1 : ∀ s : Nat, ((s >>> 0x18) &&& 0x1c) ^^^ 0x08 < 2 ^ 5 := fun s =>
    Nat.xor_lt_two_pow (lt_of_le_of_lt Nat.and_le_right (by norm_num)) (by norm_num)
  have hc : ∀ s : Nat, pass2_count s = 0x24 + (((s >>> 0x18) &&& 0x1c) ^^^ 0x08) + 1 := by
    intro s
    have := h1 s
    unfold pass2_count add32 U32
    omega
  refine ⟨hc seed, ?_⟩
  have hm : ((seed &&& 0x1C000000) >>> 0x18) &&& 0x1c = (seed >>> 0x18) &&& 0x1c := by
    apply Nat.eq_of_testBit_eq
    intro i
    have e : (0x1C000000 : Nat) = 0x1c <<< 0x18 := by decide
    rw [e]
    simp only [Nat.testBit_and, Nat.testBit_shiftRight, Nat.testBit_shiftLeft]
    have : 0x18 + i - 0x18 = i := by omega
    rw [this]
    cases (Nat.testBit 0x1c i) <;> simp
  rw [hc seed, hc (seed &&& 0x1C000000), hm]

/-- C19: `pass2` ignores the top bit of the seed and is therefore not
injective. For every seed `pass2 (seed XOR 0x80000000) = pass2 seed`, the two
seeds being different 32-bit values: the iteration count is at least `0x25`
and decided by bits 26..28, and the first pass of the loop discards bit 31
without tapping it. -/
theorem pass2_ignores_top_bit (seed : Nat) :
    pass2 (seed ^^^ 0x80000000) = pass2 seed ∧
    seed ^^^ 0x80000000 ≠ seed ∧
    (seed < 2 ^ 32 → seed ^^^ 0x80000000 < 2 ^ 32) ∧
    0x25 ≤ pass2_count seed ∧
    pass2_count seed = pass2_count (seed &&& 0x1C000000) ∧
    iterate_step (seed ^^^ 0x80000000) = iterate_step seed := by
  have hstep : iterate_step (seed ^^^ 0x80000000) = iterate_step seed := by
    have h0 : iterate_step 0x80000000 = 0 := by decide
    rw [iterate_step_xor, h0, Nat.xor_zero]
  have hcount : pass2_count (seed ^^^ 0x80000000) = pass2_count seed := by
    have hm : ((seed ^^^ 0x80000000) >>> 0x18) &&& 0x1c = (seed >>> 0x18) &&& 0x1c := by
      have h0 : ((0x80000000 : Nat) >>> 0x18) &&& 0x1c = 0 := by decide
      rw [shiftRight_xor, Nat.and_xor_distrib_right, h0, Nat.xor_zero]
    unfold pass2_count
    rw [hm]
  have hpos := (pass2_count_eq seed).1
  refine ⟨?_, ?_, ?_, by omega, (pass2_count_eq seed).2, hstep⟩
  · rw [pass2_unfold, pass2_unfold, hcount, hpos, iterate_succ, iterate_succ, hstep]
  · intro h
    have h31 := congrArg (fun x => Nat.testBit x 31) h
    have e : (0x80000000 : Nat) = 2 ^ 31 := by norm_num
    simp only [Nat.testBit_xor, e, Nat.testBit_two_pow_self] at h31
    cases hb : seed.testBit 31 <;> simp [hb] at h31
  · intro hlt
    exact Nat.xor_lt_two_pow hlt (by norm_num)

/-- The seeds `0x9ABCDEF0` and `0x1ABCDEF0` have the same phase-2 key. -/
theorem pass2_ignores_top_bit_witness :
    (0x9ABCDEF0 : Nat) < 2 ^ 32 ∧
    (0x9ABCDEF0 : Nat) ^^^ 0x80000000 = 0x1ABCDEF0 ∧
    (0x9ABCDEF0 : Nat) ^^^ 0x80000000 < 2 ^ 32 ∧
    pass2 (0x9ABCDEF0 ^^^ 0x80000000) = pass2 0x9ABCDEF0 :=
  ⟨by decide, by decide,
    (pass2_ignores_top_bit 0x9ABCDEF0).2.2.1 (by decide),
    (pass2_ignores_top_bit 0x9ABCDEF0).1⟩

/-! ## Short responses -/

/-- On a sending row `GwmAuthentication` writes one frame, and off the
sending rows none, whatever else the buffer holds. -/
theorem GwmAuthentication_nil_iff (c : Platform) (currentBus : canbus) (hc : c.Distinct)
    (serviceId : uint8_t) (data : Nat → uint8_t) :
    GwmAuthentication c currentBus serviceId data = [] ↔ ¬ sendingRow c serviceId (data 1) := by
  obtain ⟨h12, h13, h23⟩ := hc
  have hv : ∀ (a : uint8_t) (n : Nat), n < 256 → a.val = n → a = Fin.ofNat n := by
    intro a n hn h
    apply Fin.ext
    rw [h]
    exact (Nat.mod_eq_of_lt hn).symm
  constructor
  · intro hnil hrow
    rw [GwmAuthentication_table] at hnil
    rcases hrow with ⟨hs, hk⟩ | ⟨hs, hk⟩ | ⟨hs, hk⟩ | ⟨hs, hk⟩ | ⟨hs, hk⟩ | ⟨hs, hk⟩ | ⟨hs, hk⟩
    · rw [hs, if_pos rfl, val_of_eq (by norm_num) hk] at hnil
      exact List.cons_ne_nil _ _ hnil
    · rw [hs, if_pos rfl, val_of_eq (by norm_num) hk] at hnil
      exact List.cons_ne_nil _ _ hnil
    · rw [hs, if_neg (Ne.symm h12), if_pos rfl, val_of_eq (by norm_num) hk] at hnil
      exact List.cons_ne_nil _ _ hnil
    · rw [hs, if_neg (Ne.symm h12), if_pos rfl, val_of_eq (by norm_num) hk] at hnil
      exact List.cons_ne_nil _ _ hnil
    · rw [hs, if_neg (Ne.symm h12), if_pos rfl, val_of_eq (by norm_num) hk] at hnil
      exact List.cons_ne_nil _ _ hnil
    · rw [hs, if_neg (Ne.symm h12), if_pos rfl, val_of_eq (by norm_num) hk] at hnil
      exact List.cons_ne_nil _ _ hnil
    · rw [hs, if_neg (Ne.symm h13), if_neg (Ne.symm h23), if_pos rfl,
        val_of_eq (by norm_num) hk] at hnil
      exact List.cons_ne_nil _ _ hnil
  · intro h
    unfold sendingRow at h
    simp only [not_or, not_and] at h
    obtain ⟨h1, h2, h3, h4, h5, h6, h7⟩ := h
    rw [GwmAuthentication_table]
    split_ifs
    all_goals first
      | rfl
      | exact absurd (hv _ 0x01 (by norm_num) (by assumption)) (h1 (by assumption))
      | exact absurd (hv _ 0x03 (by norm_num) (by assumption)) (h2 (by assumption))
      | exact absurd (hv _ 0x41 (by norm_num) (by assumption)) (h3 (by assumption))
      | exact absurd (hv _ 0x42 (by norm_num) (by assumption)) (h4 (by assumption))
      | exact absurd (hv _ 0x01 (by norm_num) (by assumption)) (h5 (by assumption))
      | exact absurd (hv _ 0x02 (by norm_num) (by assumption)) (h6 (by assumption))
      | exact absurd (hv _ 0x01 (by norm_num) (by assumption)) (h7 (by assumption))

/-- C12 (amended): a short response is not detected. `GwmAuthentication`
takes no length; for a response that is too short for the row it selects it
still acts on the bytes of the buffer: no frame is written if and only if
`(serviceId, data[1])` is not one of the seven sending rows, and on the two
seed rows the key frame is computed from bytes `2..5` of the buffer. -/
theorem GwmAuthentication_short_response (c : Platform) (currentBus : canbus) (hc : c.Distinct)
    (len : Nat) (serviceId : uint8_t) (data : Nat → uint8_t)
    (_h : tooShort c len serviceId data) :
    (GwmAuthentication c currentBus serviceId data = [] ↔
      ¬ sendingRow c serviceId (data 1)) ∧
    (serviceId = c.VEHICLE_POLL_TYPE_SECACCESS → data 1 = 0x41 →
      GwmAuthentication c currentBus serviceId data =
        [gwmFrame c currentBus
          (keyFrameBytes 0x06 c.VEHICLE_POLL_TYPE_SECACCESS.val 0x42 (pass1 (seedBE data)))]) ∧
    (serviceId = c.VEHICLE_POLL_TYPE_SECACCESS → data 1 = 0x01 →
      GwmAuthentication c currentBus serviceId data =
        [gwmFrame c currentBus
          (keyFrameBytes 0x06 c.VEHICLE_POLL_TYPE_SECACCESS.val 0x02 (pass2 (seedBE data)))]) := by
  have hne : c.VEHICLE_POLL_TYPE_SECACCESS ≠ c.VEHICLE_POLL_TYPE_OBDIISESSION :=
    fun h => hc.1 h.symm
  refine ⟨GwmAuthentication_nil_iff c currentBus hc serviceId data, ?_, ?_⟩
  · intro hs h1
    rw [GwmAuthentication_table, hs, if_neg hne, if_pos rfl, if_pos (val_of_eq (by norm_num) h1)]
  · intro hs h1
    rw [GwmAuthentication_table, hs, if_neg hne, if_pos rfl, val_of_eq (by norm_num) h1]
    rfl

/-- A four-byte seed-1 response (bytes 4 and 5 absent, zero in the buffer):
the key frame for the seed `0x12340000` is written. -/
theorem GwmAuthentication_short_response_witness :
    udsPlatform.Distinct ∧
    tooShort udsPlatform 4 0x27 (bytes [0x04, 0x41, 0x12, 0x34]) ∧
    ((GwmAuthentication udsPlatform goodBus 0x27 (bytes [0x04, 0x41, 0x12, 0x34]) = [] ↔
      ¬ sendingRow udsPlatform 0x27 (bytes [0x04, 0x41, 0x12, 0x34] 1)) ∧
     GwmAuthentication udsPlatform goodBus 0x27 (bytes [0x04, 0x41, 0x12, 0x34]) =
       [gwmFrame udsPlatform goodBus
         (keyFrameBytes 0x06 udsPlatform.VEHICLE_POLL_TYPE_SECACCESS.val 0x42
           (pass1 (seedBE (bytes [0x04, 0x41, 0x12, 0x34]))))]) :=
  ⟨udsPlatform_distinct, Or.inr ⟨rfl, Or.inl rfl, by decide⟩,
    (GwmAuthentication_short_response udsPlatform goodBus udsPlatform_distinct 4 0x27
      (bytes [0x04, 0x41, 0x12, 0x34]) (Or.inr ⟨rfl, Or.inl rfl, by decide⟩)).1,
    (GwmAuthentication_short_response udsPlatform goodBus udsPlatform_distinct 4 0x27
      (bytes [0x04, 0x41, 0x12, 0x34]) (Or.inr ⟨rfl, Or.inl rfl, by decide⟩)).2.1 rfl rfl⟩

/-- C12 (as stated) fails: a seed-1 response of four bytes is too short for
its row, and `GwmAuthentication` still writes a key frame, computed from the
seed `0x12340000` that bytes `2..5` of the buffer hold. -/
theorem GwmAuthentication_short_response_sends :
    tooShort udsPlatform 4 0x27 (bytes [0x04, 0x41, 0x12, 0x34]) ∧
    seedBE (bytes [0x04, 0x41, 0x12, 0x34]) = 0x12340000 ∧
    GwmAuthentication udsPlatform goodBus 0x27 (bytes [0x04, 0x41, 0x12, 0x34]) =
      [gwmFrame udsPlatform goodBus (keyFrameBytes 0x06 0x27 0x42 (pass1 0x12340000))] ∧
    GwmAuthentication udsPlatform goodBus 0x27 (bytes [0x04, 0x41, 0x12, 0x34]) ≠ [] := by
  have hs : seedBE (bytes [0x04, 0x41, 0x12, 0x34]) = 0x12340000 := by decide
  have hg : GwmAuthentication udsPlatform goodBus 0x27 (bytes [0x04, 0x41, 0x12, 0x34]) =
      [gwmFrame udsPlatform goodBus (keyFrameBytes 0x06 0x27 0x42 (pass1 0x12340000))] := by
    rw [GwmAuthentication_table, hs]
    rfl
  refine ⟨Or.inr ⟨rfl, Or.inl rfl, by decide⟩, hs, hg, ?_⟩
  rw [hg]
  exact List.cons_ne_nil _ _

end MgGwmAuth
